import Mathlib

/-!
# Verification of the socceraction label-generation and action-valuation engine

A shallow embedding of `socceraction/vaep/labels.py` and
`socceraction/hybrid_vaep/formula.py`.

Modelling conventions:
* A pandas `DataFrame` of SPADL actions is a `List Action`; a pandas `Series`
  aligned with the actions is a `List` of the element type.  Row order is list
  order and the positional index `i` is the list index.
* `float` probabilities and `time_seconds` values are modelled as rationals.
* Python code that raises (e.g. `iloc[-1]` / `values[0]` on an empty series)
  is modelled by an `Option` result; `none` is the raised exception.
* `series.shift(-k)` followed by `shifted[-k:] = series.iloc[len-1]` is the
  saturating shift `shiftSat`: entry `i` holds entry `i+k`, clamped to the
  last entry of the series.
-/

namespace SA

/-- One row of the SPADL action table, restricted to the columns the
label generators and the value formula read. -/
structure Action where
  game_id : Int
  period_id : Int
  time_seconds : ℚ
  team_id : Int
  type_name : String
  result_id : Nat
  result_name : String
deriving Repr, DecidableEq, Inhabited

namespace spadl

/-- Modelled from the spec: the repository's `socceraction.spadl.config`
module (holding the `results` vocabulary used via `spadl.results.index`)
is not included under `src/`; spec §3 requires `result_id`/`result_name`
to distinguish at least `success`, `fail`, `owngoal`, `offside`. -/
def results : List String := ["fail", "success", "offside", "owngoal"]

/-- `spadl.results.index("success")`. -/
def success_id : Nat := results.findIdx (· == "success")

/-- `spadl.results.index("owngoal")`. -/
def owngoal_id : Nat := results.findIdx (· == "owngoal")

/-- Character-list version of `pat` occurring at the head of `cs`. -/
def leadMatch : List Char → List Char → Bool
  | [], _ => true
  | _ :: _, [] => false
  | p :: ps, c :: cs => p == c && leadMatch ps cs

/-- Character-list substring occurrence test. -/
def subMatch (pat : List Char) : List Char → Bool
  | [] => leadMatch pat []
  | c :: cs => leadMatch pat (c :: cs) || subMatch pat cs

/-- pandas `actions["type_name"].str.contains("shot")`: the type name
contains the substring `"shot"`. -/
def typeHasShot (s : String) : Bool := subMatch "shot".toList s.toList

/-- The per-action `goal` flag:
`actions["type_name"].str.contains("shot") & (actions["result_id"] == spadl.results.index("success"))`. -/
def goalFlag (a : Action) : Bool :=
  typeHasShot a.type_name && (a.result_id == success_id)

/-- The per-action `owngoal` flag:
`actions["type_name"].str.contains("shot") & (actions["result_id"] == spadl.results.index("owngoal"))`. -/
def owngoalFlag (a : Action) : Bool :=
  typeHasShot a.type_name && (a.result_id == owngoal_id)

/-- Spec §3 invariant: actions ordered by `(period_id, time_seconds)`
ascending. -/
def orderedPair (a b : Action) : Bool :=
  (a.period_id < b.period_id)
  || (a.period_id == b.period_id && a.time_seconds ≤ b.time_seconds)

/-- The whole sequence is pre-sorted (spec §3 invariant). -/
def presorted : List Action → Bool
  | [] => true
  | [_] => true
  | a :: b :: t => orderedPair a b && presorted (b :: t)

end spadl

namespace labels

open spadl

/-- One row of the intermediate frame
`y = pd.concat([goals, owngoals, actions["team_id"]], axis=1)`. -/
structure LabRow where
  goal : Bool
  owngoal : Bool
  team_id : Int
deriving Repr, DecidableEq, Inhabited

/-- Builds the intermediate frame `y` with columns `goal`, `owngoal`,
`team_id` from the action table. -/
def mkY (actions : List Action) : List LabRow :=
  actions.map (fun a => ⟨goalFlag a, owngoalFlag a, a.team_id⟩)

def goalCol (y : List LabRow) : List Bool := y.map (·.goal)

def owngoalCol (y : List LabRow) : List Bool := y.map (·.owngoal)

def teamCol (y : List LabRow) : List Int := y.map (·.team_id)

/-- `shifted = y[c].shift(-k); shifted[-k:] = y[c].iloc[len(y) - 1]`:
entry `i` becomes entry `i + k`, saturated at the last entry.  Only
meaningful for a non-empty column (on an empty frame the source raises,
which the `Option` wrappers below model). -/
def shiftSat [Inhabited α] (xs : List α) (k : Nat) : List α :=
  (List.range xs.length).map
    (fun i =>
      if i + k < xs.length then xs.getD (i + k) default
      else xs.getD (xs.length - 1) default)

/-- The offsets `range(1, nr_actions)` of the lookahead loop. -/
def offsets (nr_actions : Int) : List Nat :=
  (List.range (nr_actions - 1).toNat).map (· + 1)

/-- One iteration of the `scores` accumulation loop
`res = res | gi | ogi` with
`gi = y["goal+k"] & (y["team_id+k"] == y["team_id"])` and
`ogi = y["owngoal+k"] & (y["team_id+k"] != y["team_id"])`. -/
def scoresStep (y : List LabRow) (res : List Bool) (k : Nat) : List Bool :=
  (List.range y.length).map
    (fun i =>
      res.getD i false
      || ((shiftSat (goalCol y) k).getD i false
            && ((shiftSat (teamCol y) k).getD i 0 == (teamCol y).getD i 0))
      || ((shiftSat (owngoalCol y) k).getD i false
            && ((shiftSat (teamCol y) k).getD i 0 != (teamCol y).getD i 0)))

/-- One iteration of the `concedes` accumulation loop: same as
`scoresStep` with the team conditions mirrored. -/
def concedesStep (y : List LabRow) (res : List Bool) (k : Nat) : List Bool :=
  (List.range y.length).map
    (fun i =>
      res.getD i false
      || ((shiftSat (goalCol y) k).getD i false
            && ((shiftSat (teamCol y) k).getD i 0 != (teamCol y).getD i 0))
      || ((shiftSat (owngoalCol y) k).getD i false
            && ((shiftSat (teamCol y) k).getD i 0 == (teamCol y).getD i 0)))

/-- The `scores` accumulation: start from the `goal` column and OR in one
term per offset `k` in `range(1, nr_actions)`. -/
def scoresFold (y : List LabRow) (nr_actions : Int) : List Bool :=
  (offsets nr_actions).foldl (scoresStep y) (goalCol y)

/-- The `concedes` accumulation: start from the `owngoal` column. -/
def concedesFold (y : List LabRow) (nr_actions : Int) : List Bool :=
  (offsets nr_actions).foldl (concedesStep y) (owngoalCol y)

/-- `labels.scores`.  On an empty table with `nr_actions > 1` the source's
saturation fill evaluates `y[c].iloc[len(y) - 1] = y[c].iloc[-1]`, which
raises `IndexError`; this is the `none` branch. -/
def scores (actions : List Action) (nr_actions : Int) : Option (List Bool) :=
  if actions.isEmpty && decide (1 < nr_actions) then none
  else some (scoresFold (mkY actions) nr_actions)

/-- `labels.concedes`, with the same `IndexError` behaviour on an empty
table. -/
def concedes (actions : List Action) (nr_actions : Int) : Option (List Bool) :=
  if actions.isEmpty && decide (1 < nr_actions) then none
  else some (concedesFold (mkY actions) nr_actions)

/-- `labels.goal_from_shot`: the goal flag of each action itself. -/
def goal_from_shot (actions : List Action) : List Bool :=
  actions.map goalFlag

/-- State of the `while j < len(actions) and abs(...) < nr_seconds` scan:
`(still scanning, label found)`.  A `break` or a failed `while` condition
turns the first component off; afterwards further rows are ignored. -/
def scanStep (t0 ns : ℚ) (hit : Action → Bool) (s : Bool × Bool) (a : Action) :
    Bool × Bool :=
  if !s.1 then s
  else if |a.time_seconds - t0| < ns then
    if hit a then (false, true) else (true, false)
  else (false, false)

/-- Result of the forward scan over the rows after the current one:
walk while the absolute time difference is below `nr_seconds`, stop at
the first hit. -/
def scanFound (hit : Action → Bool) (t0 ns : ℚ) (rest : List Action) : Bool :=
  (rest.foldl (scanStep t0 ns hit) (true, false)).2

/-- The scan's hit test in `scores_time_based_window`:
`y["goal"][j] and y["team_id"][j] == possession_team` or
`y["owngoal"][j] and y["team_id"][j] != possession_team`. -/
def scoresHit (possession_team : Int) (a : Action) : Bool :=
  (goalFlag a && a.team_id == possession_team)
  || (owngoalFlag a && a.team_id != possession_team)

/-- The scan's hit test in `concedes_time_based_window`: mirrored teams. -/
def concedesHit (possession_team : Int) (a : Action) : Bool :=
  (goalFlag a && a.team_id != possession_team)
  || (owngoalFlag a && a.team_id == possession_team)

/-- Body of `scores_time_based_window`: count-based pre-check with horizon
`nr_actions`, then for each row `i` a forward time scan that may set
`res.at[i] = True`. -/
def scoresTbwList (actions : List Action) (nr_seconds : ℚ) (nr_actions : Int) :
    List Bool :=
  (List.range actions.length).foldl
    (fun res i =>
      let a := actions.getD i default
      if scanFound (scoresHit a.team_id) a.time_seconds nr_seconds
          (actions.drop (i + 1)) then
        res.set i true
      else res)
    (scoresFold (mkY actions) nr_actions)

/-- `labels.scores_time_based_window`; `none` is the `IndexError` of the
saturation fill on an empty table with `nr_actions > 1`. -/
def scores_time_based_window (actions : List Action) (nr_seconds : ℚ)
    (nr_actions : Int) : Option (List Bool) :=
  if actions.isEmpty && decide (1 < nr_actions) then none
  else some (scoresTbwList actions nr_seconds nr_actions)

/-- Body of `concedes_time_based_window`. -/
def concedesTbwList (actions : List Action) (nr_seconds : ℚ) (nr_actions : Int) :
    List Bool :=
  (List.range actions.length).foldl
    (fun res i =>
      let a := actions.getD i default
      if scanFound (concedesHit a.team_id) a.time_seconds nr_seconds
          (actions.drop (i + 1)) then
        res.set i true
      else res)
    (concedesFold (mkY actions) nr_actions)

/-- `labels.concedes_time_based_window`. -/
def concedes_time_based_window (actions : List Action) (nr_seconds : ℚ)
    (nr_actions : Int) : Option (List Bool) :=
  if actions.isEmpty && decide (1 < nr_actions) then none
  else some (concedesTbwList actions nr_seconds nr_actions)

end labels

namespace labelspec

open spadl

/-- Follows the spec's words (§4.1): the offsets `k = 1 .. K-1`. -/
def specOffsets (K : Int) : List Nat :=
  (List.range (K - 1).toNat).map (fun k => k + 1)

/-- Follows the spec's words (§4.1, claim C1): `scores[i]` is true iff
`goal[i]` holds, or for some `k` in `1..K-1` the saturated offset
`min (i+k) (n-1)` satisfies `goal` with the same team or `owngoal` with a
different team.  Used only to compare with the code definition. -/
def scoresSpecAt (actions : List Action) (K : Int) (i : Nat) : Bool :=
  let a := fun j => actions.getD j default
  goalFlag (a i)
  || (specOffsets K).any (fun k =>
      let j := min (i + k) (actions.length - 1)
      (goalFlag (a j) && ((a j).team_id == (a i).team_id))
      || (owngoalFlag (a j) && ((a j).team_id != (a i).team_id)))

/-- Follows the spec's words (§4.1, claim C1): the `concedes` variant,
with the team conditions mirrored. -/
def concedesSpecAt (actions : List Action) (K : Int) (i : Nat) : Bool :=
  let a := fun j => actions.getD j default
  owngoalFlag (a i)
  || (specOffsets K).any (fun k =>
      let j := min (i + k) (actions.length - 1)
      (goalFlag (a j) && ((a j).team_id != (a i).team_id))
      || (owngoalFlag (a j) && ((a j).team_id == (a i).team_id)))

/-- The full spec-side `scores` label series. -/
def scoresSpecList (actions : List Action) (K : Int) : List Bool :=
  (List.range actions.length).map (scoresSpecAt actions K)

/-- The full spec-side `concedes` label series. -/
def concedesSpecList (actions : List Action) (K : Int) : List Bool :=
  (List.range actions.length).map (concedesSpecAt actions K)

end labelspec

namespace formula

open spadl

/-- `_prev`: `x.shift(1)` with the first entry refilled by `x.values[0]`
(the first row's "preceding" value is the row itself).  On an empty series
the source raises (`x.values[0]`), which the `Option` wrappers model. -/
def listPrev [Inhabited α] (xs : List α) : List α :=
  (List.range xs.length).map (fun i => xs.getD (i - 1) default)

/-- `_samephase_nb`: the 10-second phase timeout. -/
def samephase_nb : ℚ := 10

/-- `0.792453`, the fixed scoring odds of a penalty shot. -/
def penalty_prior : ℚ := 792453 / 1000000

/-- `0.046500`, the fixed scoring odds of a corner. -/
def corner_prior : ℚ := 46500 / 1000000

/-- `sameteam = _prev(actions.team_id) == actions.team_id`. -/
def sameteamList (actions : List Action) : List Bool :=
  List.zipWith (fun p c => p == c)
    (listPrev (actions.map (·.team_id))) (actions.map (·.team_id))

/-- `_prev(scores_resultfree) * sameteam + _prev(concedes_resultfree) * (~sameteam)`
(pandas multiplies by the boolean as 1/0). -/
def offBase (actions : List Action) (scores_resultfree concedes_resultfree : List ℚ) :
    List ℚ :=
  List.zipWith (· + ·)
    (List.zipWith (fun x b => x * (if b then (1 : ℚ) else 0))
      (listPrev scores_resultfree) (sameteamList actions))
    (List.zipWith (fun x b => x * (if b then (1 : ℚ) else 0))
      (listPrev concedes_resultfree) ((sameteamList actions).map (!·)))

/-- `toolong_idx = abs(actions.time_seconds - _prev(actions.time_seconds)) > _samephase_nb`. -/
def toolongMask (actions : List Action) : List Bool :=
  List.zipWith (fun t p => if samephase_nb < |t - p| then true else false)
    (actions.map (·.time_seconds)) (listPrev (actions.map (·.time_seconds)))

/-- `prevgoal_idx = _prev(actions.type_name).isin(['shot', 'shot_freekick', 'shot_penalty']) & (_prev(actions.result_name) == 'success')`. -/
def prevgoalMask (actions : List Action) : List Bool :=
  List.zipWith
    (fun ty r =>
      (["shot", "shot_freekick", "shot_penalty"] : List String).contains ty
      && (r == "success"))
    (listPrev (actions.map (·.type_name))) (listPrev (actions.map (·.result_name)))

/-- `penalty_idx = actions.type_name == 'shot_penalty'`. -/
def penaltyMask (actions : List Action) : List Bool :=
  actions.map (fun a => a.type_name == "shot_penalty")

/-- `corner_idx = actions.type_name.isin(['corner_crossed', 'corner_short'])`. -/
def cornerMask (actions : List Action) : List Bool :=
  actions.map
    (fun a => (["corner_crossed", "corner_short"] : List String).contains a.type_name)

/-- `series[mask] = v`: entries where the boolean mask holds are replaced
by `v`. -/
def maskSet (xs : List ℚ) (mask : List Bool) (v : ℚ) : List ℚ :=
  List.zipWith (fun x b => if b then v else x) xs mask

/-- The fully overridden reference series `prev_scores_resultfree` of
`offensive_value`: base, then the phase-timeout, preceding-goal, penalty
and corner overrides applied in source order. -/
def offRef (actions : List Action) (scores_resultfree concedes_resultfree : List ℚ) :
    List ℚ :=
  maskSet
    (maskSet
      (maskSet
        (maskSet (offBase actions scores_resultfree concedes_resultfree)
          (toolongMask actions) 0)
        (prevgoalMask actions) 0)
      (penaltyMask actions) penalty_prior)
    (cornerMask actions) corner_prior

/-- `scores_standard - prev_scores_resultfree`. -/
def offVals (actions : List Action)
    (scores_standard scores_resultfree concedes_resultfree : List ℚ) : List ℚ :=
  List.zipWith (fun s r => s - r) scores_standard
    (offRef actions scores_resultfree concedes_resultfree)

/-- `formula.offensive_value`; `none` is the `IndexError` raised by
`_prev` (`x.values[0]`) on an empty series. -/
def offensive_value (actions : List Action)
    (scores_standard scores_resultfree concedes_resultfree : List ℚ) :
    Option (List ℚ) :=
  if actions.isEmpty || scores_resultfree.isEmpty || concedes_resultfree.isEmpty then
    none
  else some (offVals actions scores_standard scores_resultfree concedes_resultfree)

/-- `_prev(concedes_resultfree) * sameteam + _prev(scores_resultfree) * (~sameteam)`. -/
def defBase (actions : List Action) (scores_resultfree concedes_resultfree : List ℚ) :
    List ℚ :=
  List.zipWith (· + ·)
    (List.zipWith (fun x b => x * (if b then (1 : ℚ) else 0))
      (listPrev concedes_resultfree) (sameteamList actions))
    (List.zipWith (fun x b => x * (if b then (1 : ℚ) else 0))
      (listPrev scores_resultfree) ((sameteamList actions).map (!·)))

/-- The reference series `prev_concedes_resultfree` of `defensive_value`:
only the phase-timeout and preceding-goal overrides are applied — the
source has no penalty or corner branch here. -/
def defRef (actions : List Action) (scores_resultfree concedes_resultfree : List ℚ) :
    List ℚ :=
  maskSet
    (maskSet (defBase actions scores_resultfree concedes_resultfree)
      (toolongMask actions) 0)
    (prevgoalMask actions) 0

/-- `-(concedes_standard - prev_concedes_resultfree)`. -/
def defVals (actions : List Action)
    (scores_resultfree concedes_standard concedes_resultfree : List ℚ) : List ℚ :=
  List.zipWith (fun c r => -(c - r)) concedes_standard
    (defRef actions scores_resultfree concedes_resultfree)

/-- `formula.defensive_value`; `none` is the `IndexError` of `_prev` on an
empty series. -/
def defensive_value (actions : List Action)
    (scores_resultfree concedes_standard concedes_resultfree : List ℚ) :
    Option (List ℚ) :=
  if actions.isEmpty || concedes_resultfree.isEmpty || scores_resultfree.isEmpty then
    none
  else some (defVals actions scores_resultfree concedes_standard concedes_resultfree)

/-- `formula.value`: the triple
`(offensive_value, defensive_value, vaep_value)` with
`vaep_value = offensive_value + defensive_value`. -/
def value (actions : List Action)
    (Pscores_standard Pscores_resultfree Pconcedes_standard Pconcedes_resultfree :
      List ℚ) : Option (List ℚ × List ℚ × List ℚ) :=
  match offensive_value actions Pscores_standard Pscores_resultfree
      Pconcedes_resultfree,
    defensive_value actions Pscores_resultfree Pconcedes_standard
      Pconcedes_resultfree with
  | some o, some d => some (o, d, List.zipWith (· + ·) o d)
  | _, _ => none

/-- Store of the local variables of `offensive_value`, for the frame
property: the caller-supplied series are separate store fields from the
freshly built intermediate `prev_scores_resultfree` (a new series produced
by `_prev` arithmetic, which `pd.Series.shift` allocates). -/
structure OffensiveRun where
  actions : List Action
  scores_standard : List ℚ
  scores_resultfree : List ℚ
  concedes_resultfree : List ℚ
  prev_scores_resultfree : List ℚ
deriving Repr, DecidableEq

/-- `offensive_value` as a sequence of store updates: each in-place
assignment (`prev_scores_resultfree[idx] = c`) in the source writes the
intermediate field, never an input field. -/
def offensiveRun (actions : List Action)
    (scores_standard scores_resultfree concedes_resultfree : List ℚ) :
    OffensiveRun :=
  let s0 : OffensiveRun :=
    ⟨actions, scores_standard, scores_resultfree, concedes_resultfree,
      offBase actions scores_resultfree concedes_resultfree⟩
  let s1 := { s0 with
    prev_scores_resultfree :=
      maskSet s0.prev_scores_resultfree (toolongMask s0.actions) 0 }
  let s2 := { s1 with
    prev_scores_resultfree :=
      maskSet s1.prev_scores_resultfree (prevgoalMask s1.actions) 0 }
  let s3 := { s2 with
    prev_scores_resultfree :=
      maskSet s2.prev_scores_resultfree (penaltyMask s2.actions) penalty_prior }
  { s3 with
    prev_scores_resultfree :=
      maskSet s3.prev_scores_resultfree (cornerMask s3.actions) corner_prior }

/-- The value returned from the store run. -/
def offensiveRunOut (actions : List Action)
    (scores_standard scores_resultfree concedes_resultfree : List ℚ) : List ℚ :=
  let s := offensiveRun actions scores_standard scores_resultfree
    concedes_resultfree
  List.zipWith (fun x r => x - r) s.scores_standard s.prev_scores_resultfree

end formula

namespace labels

open spadl

/-- Store of the local variables of `scores_time_based_window`, for the
frame property: the input table `actions` is a separate store field from
the freshly built frame `y` (`pd.concat` copies) and the label series
`res`, the only targets of the source's in-place writes
(`shifted[-i:] = ...` on freshly shifted columns, `res.at[i] = True`). -/
structure TbwRun where
  actions : List Action
  y : List LabRow
  res : List Bool
deriving Repr, DecidableEq

/-- One iteration of the scan loop of `scores_time_based_window` as a
store update: only the `res` field is written. -/
def tbwRunStep (nr_seconds : ℚ) (st : TbwRun) (i : Nat) : TbwRun :=
  let a := st.actions.getD i default
  if scanFound (scoresHit a.team_id) a.time_seconds nr_seconds
      (st.actions.drop (i + 1)) then
    { st with res := st.res.set i true }
  else st

/-- `scores_time_based_window` as a store run: build `y` and the
pre-check series `res` fresh, then run the scan loop, which writes only
`res`. -/
def scoresTbwRun (actions : List Action) (nr_seconds : ℚ) (nr_actions : Int) :
    TbwRun :=
  let s0 : TbwRun :=
    ⟨actions, mkY actions, scoresFold (mkY actions) nr_actions⟩
  (List.range actions.length).foldl (tbwRunStep nr_seconds) s0

end labels

/-! ### Concrete fixtures

The three-action scenario of spec §8 (team-1 pass at t=0, team-1 goal at
t=5, team-2 kickoff pass at t=10, all in period 1), and small inputs used
by counterexamples and witnesses. -/

def demoPass : Action := ⟨7, 1, 0, 1, "pass", 0, "fail"⟩

def demoShot : Action := ⟨7, 1, 5, 1, "shot", 1, "success"⟩

def demoKick : Action := ⟨7, 1, 10, 2, "pass", 0, "fail"⟩

def demo : List Action := [demoPass, demoShot, demoKick]

/-- A sorted two-period sequence whose period-2 action is a team-1 goal
one second into the new period: the time scan from the period-1 action at
`t = 3` sees `|1 - 3| = 2 < 15` and crosses the period boundary. -/
def leakGoal : List Action :=
  [⟨7, 1, 3, 1, "pass", 0, "fail"⟩, ⟨7, 2, 1, 1, "shot", 1, "success"⟩]

/-- Identical to `leakGoal` on all period-1 actions, but the period-2
action is a plain pass. -/
def leakPass : List Action :=
  [⟨7, 1, 3, 1, "pass", 0, "fail"⟩, ⟨7, 2, 1, 1, "pass", 0, "fail"⟩]

/-- A single penalty-shot action (unsuccessful, so no preceding-goal
override can fire on a later row). -/
def penAct : Action := ⟨7, 1, 30, 1, "shot_penalty", 0, "fail"⟩

/-- Two-period sequences for the amended-C3 witness: they agree on the
single period-1 action; their period-2 rows differ (team-1 goal vs team-2
pass) but lie far outside the 15-second bound. -/
def farGoal : List Action :=
  [⟨7, 1, 3, 1, "pass", 0, "fail"⟩, ⟨7, 2, 100, 1, "shot", 1, "success"⟩]

def farPass : List Action :=
  [⟨7, 1, 3, 1, "pass", 0, "fail"⟩, ⟨7, 2, 200, 2, "pass", 0, "fail"⟩]

/-! ### General list lemmas -/

theorem getD_map_range (f : Nat → α) {n i : Nat} (hi : i < n) (d : α) :
    ((List.range n).map f).getD i d = f i := by
  rw [List.getD_eq_getElem _ _ (by simpa using hi)]
  simp

theorem getD_map_of_lt (f : α → β) (l : List α) {i : Nat} (hi : i < l.length)
    (d : β) (da : α) : (l.map f).getD i d = f (l.getD i da) := by
  rw [List.getD_eq_getElem _ _ (by simpa using hi), List.getD_eq_getElem _ _ hi]
  simp

theorem getD_zipWith_of_lt (f : α → β → γ) (l₁ : List α) (l₂ : List β) {i : Nat}
    (h₁ : i < l₁.length) (h₂ : i < l₂.length) (d : γ) (d₁ : α) (d₂ : β) :
    (List.zipWith f l₁ l₂).getD i d = f (l₁.getD i d₁) (l₂.getD i d₂) := by
  rw [List.getD_eq_getElem _ _ (by simp; omega),
    List.getD_eq_getElem _ _ h₁, List.getD_eq_getElem _ _ h₂]
  exact List.getElem_zipWith

theorem getD_set_of_lt (l : List α) (j : Nat) (a : α) (i : Nat) (hi : i < l.length)
    (d : α) : ((l.set j a).getD i d) = if j = i then a else l.getD i d := by
  rw [List.getD_eq_getElem _ _ (by simpa using hi), List.getD_eq_getElem _ _ hi]
  simp [List.getElem_set]

theorem any_congr_fun (l : List α) (p q : α → Bool) (h : ∀ a, p a = q a) :
    l.any p = l.any q := by
  rw [funext h]

namespace labels

open spadl

/-! ### Pointwise characterization of the count-based accumulation -/

@[simp] theorem goalCol_length (y : List LabRow) : (goalCol y).length = y.length := by
  simp [goalCol]

@[simp] theorem owngoalCol_length (y : List LabRow) :
    (owngoalCol y).length = y.length := by
  simp [owngoalCol]

@[simp] theorem teamCol_length (y : List LabRow) : (teamCol y).length = y.length := by
  simp [teamCol]

@[simp] theorem mkY_length (actions : List Action) :
    (mkY actions).length = actions.length := by
  simp [mkY]

@[simp] theorem shiftSat_length [Inhabited α] (xs : List α) (k : Nat) :
    (shiftSat xs k).length = xs.length := by
  simp [shiftSat]

theorem shiftSat_getD [Inhabited α] (xs : List α) (k i : Nat) (hi : i < xs.length)
    (d : α) : (shiftSat xs k).getD i d = xs.getD (min (i + k) (xs.length - 1)) d := by
  rw [shiftSat, getD_map_range _ hi]
  by_cases h : i + k < xs.length
  · have hmin : min (i + k) (xs.length - 1) = i + k := by omega
    rw [if_pos h, hmin, List.getD_eq_getElem _ _ h, List.getD_eq_getElem _ _ h]
  · have hn : 0 < xs.length := by omega
    have hmin : min (i + k) (xs.length - 1) = xs.length - 1 := by omega
    have hlt : xs.length - 1 < xs.length := by omega
    rw [if_neg h, hmin, List.getD_eq_getElem _ _ hlt, List.getD_eq_getElem _ _ hlt]

@[simp] theorem scoresStep_length (y : List LabRow) (res : List Bool) (k : Nat) :
    (scoresStep y res k).length = y.length := by
  simp [scoresStep]

@[simp] theorem concedesStep_length (y : List LabRow) (res : List Bool) (k : Nat) :
    (concedesStep y res k).length = y.length := by
  simp [concedesStep]

/-- The per-offset term ORed into `scores` at row `i`:
the saturated offset row satisfies goal-and-same-team or
owngoal-and-other-team. -/
def scoresTerm (y : List LabRow) (i k : Nat) : Bool :=
  let j := min (i + k) (y.length - 1)
  ((goalCol y).getD j false && ((teamCol y).getD j 0 == (teamCol y).getD i 0))
  || ((owngoalCol y).getD j false && ((teamCol y).getD j 0 != (teamCol y).getD i 0))

/-- The per-offset term ORed into `concedes` at row `i`. -/
def concedesTerm (y : List LabRow) (i k : Nat) : Bool :=
  let j := min (i + k) (y.length - 1)
  ((goalCol y).getD j false && ((teamCol y).getD j 0 != (teamCol y).getD i 0))
  || ((owngoalCol y).getD j false && ((teamCol y).getD j 0 == (teamCol y).getD i 0))

theorem scoresStep_getD (y : List LabRow) (res : List Bool) (k i : Nat)
    (hi : i < y.length) :
    (scoresStep y res k).getD i false =
      (res.getD i false || scoresTerm y i k) := by
  rw [scoresStep, getD_map_range _ hi]
  rw [shiftSat_getD _ _ _ (by simpa using hi), shiftSat_getD _ _ _ (by simpa using hi),
    shiftSat_getD _ _ _ (by simpa using hi)]
  simp [scoresTerm, Bool.or_assoc]

theorem concedesStep_getD (y : List LabRow) (res : List Bool) (k i : Nat)
    (hi : i < y.length) :
    (concedesStep y res k).getD i false =
      (res.getD i false || concedesTerm y i k) := by
  rw [concedesStep, getD_map_range _ hi]
  rw [shiftSat_getD _ _ _ (by simpa using hi), shiftSat_getD _ _ _ (by simpa using hi),
    shiftSat_getD _ _ _ (by simpa using hi)]
  simp [concedesTerm, Bool.or_assoc]

theorem foldl_scoresStep_length (y : List LabRow) (ks : List Nat) (res : List Bool)
    (hres : res.length = y.length) :
    (ks.foldl (scoresStep y) res).length = y.length := by
  induction ks generalizing res with
  | nil => simpa
  | cons k ks ih => rw [List.foldl_cons]; exact ih _ (by simp)

theorem foldl_concedesStep_length (y : List LabRow) (ks : List Nat) (res : List Bool)
    (hres : res.length = y.length) :
    (ks.foldl (concedesStep y) res).length = y.length := by
  induction ks generalizing res with
  | nil => simpa
  | cons k ks ih => rw [List.foldl_cons]; exact ih _ (by simp)

@[simp] theorem scoresFold_length (y : List LabRow) (K : Int) :
    (scoresFold y K).length = y.length :=
  foldl_scoresStep_length y _ _ (by simp)

@[simp] theorem concedesFold_length (y : List LabRow) (K : Int) :
    (concedesFold y K).length = y.length :=
  foldl_concedesStep_length y _ _ (by simp)

theorem foldl_scoresStep_getD (y : List LabRow) (ks : List Nat) (res : List Bool)
    (hres : res.length = y.length) (i : Nat) (hi : i < y.length) :
    (ks.foldl (scoresStep y) res).getD i false =
      (res.getD i false || ks.any (scoresTerm y i)) := by
  induction ks generalizing res with
  | nil => simp
  | cons k ks ih =>
    rw [List.foldl_cons, ih _ (by simp), scoresStep_getD _ _ _ _ hi]
    simp [Bool.or_assoc]

theorem foldl_concedesStep_getD (y : List LabRow) (ks : List Nat) (res : List Bool)
    (hres : res.length = y.length) (i : Nat) (hi : i < y.length) :
    (ks.foldl (concedesStep y) res).getD i false =
      (res.getD i false || ks.any (concedesTerm y i)) := by
  induction ks generalizing res with
  | nil => simp
  | cons k ks ih =>
    rw [List.foldl_cons, ih _ (by simp), concedesStep_getD _ _ _ _ hi]
    simp [Bool.or_assoc]

theorem scoresFold_getD (y : List LabRow) (K : Int) (i : Nat) (hi : i < y.length) :
    (scoresFold y K).getD i false =
      ((goalCol y).getD i false || (offsets K).any (scoresTerm y i)) :=
  foldl_scoresStep_getD y _ _ (by simp) i hi

theorem concedesFold_getD (y : List LabRow) (K : Int) (i : Nat) (hi : i < y.length) :
    (concedesFold y K).getD i false =
      ((owngoalCol y).getD i false || (offsets K).any (concedesTerm y i)) :=
  foldl_concedesStep_getD y _ _ (by simp) i hi

/-! ### Relating the frame `y` back to the action table -/

theorem goalCol_mkY_getD (actions : List Action) {j : Nat} (hj : j < actions.length) :
    (goalCol (mkY actions)).getD j false = goalFlag (actions.getD j default) := by
  rw [goalCol, mkY, List.map_map]
  exact getD_map_of_lt _ _ hj _ _

theorem owngoalCol_mkY_getD (actions : List Action) {j : Nat}
    (hj : j < actions.length) :
    (owngoalCol (mkY actions)).getD j false = owngoalFlag (actions.getD j default) := by
  rw [owngoalCol, mkY, List.map_map]
  exact getD_map_of_lt _ _ hj _ _

theorem teamCol_mkY_getD (actions : List Action) {j : Nat} (hj : j < actions.length) :
    (teamCol (mkY actions)).getD j 0 = (actions.getD j default).team_id := by
  rw [teamCol, mkY, List.map_map]
  exact getD_map_of_lt _ _ hj _ _

theorem scoresTerm_mkY (actions : List Action) (i k : Nat) (hi : i < actions.length) :
    scoresTerm (mkY actions) i k =
      (let a := fun j => actions.getD j default
       let j := min (i + k) (actions.length - 1)
       (goalFlag (a j) && ((a j).team_id == (a i).team_id))
       || (owngoalFlag (a j) && ((a j).team_id != (a i).team_id))) := by
  have hj : min (i + k) (actions.length - 1) < actions.length := by omega
  simp only [scoresTerm, mkY_length]
  rw [goalCol_mkY_getD _ hj, owngoalCol_mkY_getD _ hj, teamCol_mkY_getD _ hj,
    teamCol_mkY_getD _ hi]

theorem concedesTerm_mkY (actions : List Action) (i k : Nat)
    (hi : i < actions.length) :
    concedesTerm (mkY actions) i k =
      (let a := fun j => actions.getD j default
       let j := min (i + k) (actions.length - 1)
       (goalFlag (a j) && ((a j).team_id != (a i).team_id))
       || (owngoalFlag (a j) && ((a j).team_id == (a i).team_id))) := by
  have hj : min (i + k) (actions.length - 1) < actions.length := by omega
  simp only [concedesTerm, mkY_length]
  rw [goalCol_mkY_getD _ hj, owngoalCol_mkY_getD _ hj, teamCol_mkY_getD _ hj,
    teamCol_mkY_getD _ hi]

/-- The accumulated `scores` label at row `i` equals the spec formula. -/
theorem scoresFold_eq_spec (actions : List Action) (K : Int) (i : Nat)
    (hi : i < actions.length) :
    (scoresFold (mkY actions) K).getD i false = labelspec.scoresSpecAt actions K i := by
  rw [scoresFold_getD _ _ _ (by simpa using hi), goalCol_mkY_getD _ hi]
  have hoff : offsets K = labelspec.specOffsets K := rfl
  rw [hoff, any_congr_fun _ _
    (fun k =>
      (let a := fun j => actions.getD j default
       let j := min (i + k) (actions.length - 1)
       (goalFlag (a j) && ((a j).team_id == (a i).team_id))
       || (owngoalFlag (a j) && ((a j).team_id != (a i).team_id))))
    (fun k => scoresTerm_mkY actions i k hi)]
  rfl

/-- The accumulated `concedes` label at row `i` equals the spec formula. -/
theorem concedesFold_eq_spec (actions : List Action) (K : Int) (i : Nat)
    (hi : i < actions.length) :
    (concedesFold (mkY actions) K).getD i false =
      labelspec.concedesSpecAt actions K i := by
  rw [concedesFold_getD _ _ _ (by simpa using hi), owngoalCol_mkY_getD _ hi]
  have hoff : offsets K = labelspec.specOffsets K := rfl
  rw [hoff, any_congr_fun _ _
    (fun k =>
      (let a := fun j => actions.getD j default
       let j := min (i + k) (actions.length - 1)
       (goalFlag (a j) && ((a j).team_id != (a i).team_id))
       || (owngoalFlag (a j) && ((a j).team_id == (a i).team_id))))
    (fun k => concedesTerm_mkY actions i k hi)]
  rfl

/-! ### The forward time scan -/

theorem scanStep_dead (t0 ns : ℚ) (hit : Action → Bool) (s : Bool × Bool)
    (h : s.1 = false) (a : Action) : scanStep t0 ns hit s a = s := by
  simp [scanStep, h]

theorem foldl_scanStep_dead (t0 ns : ℚ) (hit : Action → Bool) (rest : List Action)
    (s : Bool × Bool) (h : s.1 = false) :
    rest.foldl (scanStep t0 ns hit) s = s := by
  induction rest with
  | nil => rfl
  | cons a t ih => rw [List.foldl_cons, scanStep_dead _ _ _ _ h]; exact ih

/-- With a non-positive time bound the `while` condition
`abs(...) < nr_seconds` fails immediately: the scan finds nothing. -/
theorem scanFound_of_nonpos (hit : Action → Bool) (t0 ns : ℚ) (hns : ns ≤ 0)
    (rest : List Action) : scanFound hit t0 ns rest = false := by
  cases rest with
  | nil => rfl
  | cons a t =>
    have hcond : ¬ (|a.time_seconds - t0| < ns) := fun hc =>
      absurd (lt_of_le_of_lt (abs_nonneg _) hc) (not_lt.mpr hns)
    have hstep : scanStep t0 ns hit (true, false) a = (false, false) := by
      simp [scanStep, hcond]
    rw [scanFound, List.foldl_cons, hstep, foldl_scanStep_dead _ _ _ _ _ rfl]

/-! ### Pointwise form of the scan loop over the label series -/

theorem foldl_setTrue_length (C : Nat → Bool) (l : List Nat) (res : List Bool) :
    (l.foldl (fun r j => if C j then r.set j true else r) res).length =
      res.length := by
  induction l generalizing res with
  | nil => rfl
  | cons a l ih =>
    rw [List.foldl_cons, ih]
    by_cases h : C a <;> simp [h]

theorem foldl_setTrue_getD_nomem (C : Nat → Bool) (l : List Nat) (res : List Bool)
    (i : Nat) (him : i ∉ l) :
    ((l.foldl (fun r j => if C j then r.set j true else r) res).getD i false) =
      res.getD i false := by
  induction l generalizing res with
  | nil => rfl
  | cons a l ih =>
    rw [List.foldl_cons, ih _ (fun h => him (List.mem_cons_of_mem _ h))]
    have hai : a ≠ i := fun h => him (h ▸ List.mem_cons_self _ _)
    by_cases h : C a
    · rw [if_pos h]
      rcases Nat.lt_or_ge i res.length with hlt | hge
      · rw [getD_set_of_lt _ _ _ _ hlt, if_neg hai]
      · rw [List.getD_eq_default _ _ (by simpa using hge),
          List.getD_eq_default _ _ hge]
    · rw [if_neg h]

theorem foldl_setTrue_getD_mem (C : Nat → Bool) (l : List Nat) (res : List Bool)
    (i : Nat) (hi : i < res.length) (him : i ∈ l) :
    ((l.foldl (fun r j => if C j then r.set j true else r) res).getD i false) =
      (res.getD i false || C i) := by
  induction l generalizing res with
  | nil => cases him
  | cons a l ih =>
    rw [List.foldl_cons]
    by_cases hl : i ∈ l
    · have hlen : (if C a then res.set a true else res).length = res.length := by
        by_cases h : C a <;> simp [h]
      rw [ih _ (hlen ▸ hi) hl]
      by_cases h : C a
      · rw [if_pos h, getD_set_of_lt _ _ _ _ hi]
        by_cases hai : a = i
        · subst hai; simp [h]
        · rw [if_neg hai]
      · rw [if_neg h]
    · have hai : a = i := by
        rcases List.mem_cons.mp him with h | h
        · exact h.symm
        · exact absurd h hl
      subst hai
      rw [foldl_setTrue_getD_nomem _ _ _ _ hl]
      by_cases h : C a
      · rw [if_pos h, getD_set_of_lt _ _ _ _ hi]
        simp [h]
      · rw [if_neg h]
        simp [h]

@[simp] theorem scoresTbwList_length (actions : List Action) (ns : ℚ) (K : Int) :
    (scoresTbwList actions ns K).length = actions.length := by
  rw [scoresTbwList, foldl_setTrue_length]
  simp

@[simp] theorem concedesTbwList_length (actions : List Action) (ns : ℚ) (K : Int) :
    (concedesTbwList actions ns K).length = actions.length := by
  rw [concedesTbwList, foldl_setTrue_length]
  simp

/-- The time-based `scores` label at row `i` is the OR of the count-based
pre-check and the forward time scan. -/
theorem scoresTbwList_getD (actions : List Action) (ns : ℚ) (K : Int) (i : Nat)
    (hi : i < actions.length) :
    (scoresTbwList actions ns K).getD i false =
      ((scoresFold (mkY actions) K).getD i false
        || scanFound (scoresHit (actions.getD i default).team_id)
            (actions.getD i default).time_seconds ns (actions.drop (i + 1))) := by
  exact foldl_setTrue_getD_mem
    (fun j => scanFound (scoresHit (actions.getD j default).team_id)
      (actions.getD j default).time_seconds ns (actions.drop (j + 1)))
    (List.range actions.length) (scoresFold (mkY actions) K) i
    (by simpa using hi) (List.mem_range.mpr hi)

/-- The time-based `concedes` label at row `i`. -/
theorem concedesTbwList_getD (actions : List Action) (ns : ℚ) (K : Int) (i : Nat)
    (hi : i < actions.length) :
    (concedesTbwList actions ns K).getD i false =
      ((concedesFold (mkY actions) K).getD i false
        || scanFound (concedesHit (actions.getD i default).team_id)
            (actions.getD i default).time_seconds ns (actions.drop (i + 1))) := by
  exact foldl_setTrue_getD_mem
    (fun j => scanFound (concedesHit (actions.getD j default).team_id)
      (actions.getD j default).time_seconds ns (actions.drop (j + 1)))
    (List.range actions.length) (concedesFold (mkY actions) K) i
    (by simpa using hi) (List.mem_range.mpr hi)

theorem foldl_setTrue_id (C : Nat → Bool) (hC : ∀ j, C j = false) (l : List Nat)
    (res : List Bool) :
    l.foldl (fun r j => if C j then r.set j true else r) res = res := by
  induction l generalizing res with
  | nil => rfl
  | cons a l ih =>
    rw [List.foldl_cons, hC a]
    simp only [Bool.false_eq_true, if_false]
    exact ih res

/-- With a non-positive time bound the whole scan loop is a no-op. -/
theorem tbwList_eq_fold_of_nonpos (actions : List Action) (ns : ℚ) (hns : ns ≤ 0)
    (K : Int) :
    scoresTbwList actions ns K = scoresFold (mkY actions) K
    ∧ concedesTbwList actions ns K = concedesFold (mkY actions) K :=
  ⟨foldl_setTrue_id
      (fun j => scanFound (scoresHit (actions.getD j default).team_id)
        (actions.getD j default).time_seconds ns (actions.drop (j + 1)))
      (fun j => scanFound_of_nonpos _ _ _ hns _) (List.range actions.length)
      (scoresFold (mkY actions) K),
    foldl_setTrue_id
      (fun j => scanFound (concedesHit (actions.getD j default).team_id)
        (actions.getD j default).time_seconds ns (actions.drop (j + 1)))
      (fun j => scanFound_of_nonpos _ _ _ hns _) (List.range actions.length)
      (concedesFold (mkY actions) K)⟩

/-! ### Agreement of the scan under out-of-time tails -/

theorem foldl_scanStep_shape (t0 ns : ℚ) (hit : Action → Bool) (l : List Action)
    (s : Bool × Bool) (h : s.1 = false ∨ s = (true, false)) :
    (l.foldl (scanStep t0 ns hit) s).1 = false
    ∨ l.foldl (scanStep t0 ns hit) s = (true, false) := by
  induction l generalizing s with
  | nil => exact h
  | cons a l ih =>
    rw [List.foldl_cons]
    apply ih
    rcases h with h | h
    · left; rw [scanStep_dead _ _ _ _ h]; exact h
    · subst h
      by_cases htime : |a.time_seconds - t0| < ns
      · by_cases hhit : hit a = true
        · left; simp [scanStep, htime, hhit]
        · right; simp [scanStep, htime, hhit]
      · left; simp [scanStep, htime]

theorem foldl_scanStep_tail_out (t0 ns : ℚ) (hit : Action → Bool)
    (tail : List Action) (hout : ∀ a ∈ tail, ¬ (|a.time_seconds - t0| < ns)) :
    (tail.foldl (scanStep t0 ns hit) (true, false)).2 = false := by
  cases tail with
  | nil => rfl
  | cons a t =>
    have hstep : scanStep t0 ns hit (true, false) a = (false, false) := by
      simp [scanStep, hout a (List.mem_cons_self _ _)]
    rw [List.foldl_cons, hstep, foldl_scanStep_dead _ _ _ _ _ rfl]

/-- If the rows after a common block all fail the time bound (in both
sequences), the scan cannot distinguish the two sequences. -/
theorem scanFound_agree (hit : Action → Bool) (t0 ns : ℚ)
    (common tail₁ tail₂ : List Action)
    (h₁ : ∀ a ∈ tail₁, ¬ (|a.time_seconds - t0| < ns))
    (h₂ : ∀ a ∈ tail₂, ¬ (|a.time_seconds - t0| < ns)) :
    scanFound hit t0 ns (common ++ tail₁) = scanFound hit t0 ns (common ++ tail₂) := by
  rw [scanFound, scanFound, List.foldl_append, List.foldl_append]
  rcases foldl_scanStep_shape t0 ns hit common (true, false) (Or.inr rfl) with
    hdead | hlive
  · rw [foldl_scanStep_dead _ _ _ _ _ hdead, foldl_scanStep_dead _ _ _ _ _ hdead]
  · rw [hlive, foldl_scanStep_tail_out _ _ _ _ h₁, foldl_scanStep_tail_out _ _ _ _ h₂]

end labels

/-! ### Further list helpers -/

theorem any_congr_mem (l : List α) (p q : α → Bool) (h : ∀ a ∈ l, p a = q a) :
    l.any p = l.any q := by
  induction l with
  | nil => rfl
  | cons a l ih =>
    rw [List.any_cons, List.any_cons, h a (List.mem_cons_self _ _),
      ih (fun b hb => h b (List.mem_cons_of_mem _ hb))]

theorem mem_specOffsets (K : Int) (k : Nat) (hk : k ∈ labelspec.specOffsets K) :
    1 ≤ k ∧ k ≤ (K - 1).toNat := by
  rcases List.mem_map.mp hk with ⟨j, hj, rfl⟩
  have := List.mem_range.mp hj
  omega

namespace formula

open spadl

/-! ### Length and pointwise lemmas for the value formula -/

@[simp] theorem listPrev_length [Inhabited α] (xs : List α) :
    (listPrev xs).length = xs.length := by
  simp [listPrev]

theorem listPrev_getD [Inhabited α] (xs : List α) {i : Nat} (hi : i < xs.length)
    (d : α) : (listPrev xs).getD i d = xs.getD (i - 1) d := by
  rw [listPrev, getD_map_range _ hi]
  have h : i - 1 < xs.length := by omega
  rw [List.getD_eq_getElem _ _ h, List.getD_eq_getElem _ _ h]

@[simp] theorem sameteamList_length (actions : List Action) :
    (sameteamList actions).length = actions.length := by
  simp [sameteamList]

@[simp] theorem toolongMask_length (actions : List Action) :
    (toolongMask actions).length = actions.length := by
  simp [toolongMask]

@[simp] theorem prevgoalMask_length (actions : List Action) :
    (prevgoalMask actions).length = actions.length := by
  simp [prevgoalMask]

@[simp] theorem penaltyMask_length (actions : List Action) :
    (penaltyMask actions).length = actions.length := by
  simp [penaltyMask]

@[simp] theorem cornerMask_length (actions : List Action) :
    (cornerMask actions).length = actions.length := by
  simp [cornerMask]

@[simp] theorem maskSet_length (xs : List ℚ) (mask : List Bool) (v : ℚ) :
    (maskSet xs mask v).length = min xs.length mask.length := by
  simp [maskSet]

theorem offBase_length (actions : List Action) (srf crf : List ℚ)
    (hsrf : srf.length = actions.length) (hcrf : crf.length = actions.length) :
    (offBase actions srf crf).length = actions.length := by
  simp [offBase, hsrf, hcrf]

theorem defBase_length (actions : List Action) (srf crf : List ℚ)
    (hsrf : srf.length = actions.length) (hcrf : crf.length = actions.length) :
    (defBase actions srf crf).length = actions.length := by
  simp [defBase, hsrf, hcrf]

theorem offRef_length (actions : List Action) (srf crf : List ℚ)
    (hsrf : srf.length = actions.length) (hcrf : crf.length = actions.length) :
    (offRef actions srf crf).length = actions.length := by
  simp [offRef, offBase_length actions srf crf hsrf hcrf]

theorem defRef_length (actions : List Action) (srf crf : List ℚ)
    (hsrf : srf.length = actions.length) (hcrf : crf.length = actions.length) :
    (defRef actions srf crf).length = actions.length := by
  simp [defRef, defBase_length actions srf crf hsrf hcrf]

theorem offVals_length (actions : List Action) (ss srf crf : List ℚ)
    (hss : ss.length = actions.length) (hsrf : srf.length = actions.length)
    (hcrf : crf.length = actions.length) :
    (offVals actions ss srf crf).length = actions.length := by
  simp [offVals, hss, offRef_length actions srf crf hsrf hcrf]

theorem defVals_length (actions : List Action) (srf cs crf : List ℚ)
    (hsrf : srf.length = actions.length) (hcs : cs.length = actions.length)
    (hcrf : crf.length = actions.length) :
    (defVals actions srf cs crf).length = actions.length := by
  simp [defVals, hcs, defRef_length actions srf crf hsrf hcrf]

theorem maskSet_getD (xs : List ℚ) (mask : List Bool) (v : ℚ) {i : Nat}
    (hx : i < xs.length) (hm : i < mask.length) :
    (maskSet xs mask v).getD i 0 =
      if mask.getD i false then v else xs.getD i 0 :=
  getD_zipWith_of_lt _ _ _ hx hm _ _ _

/-- The overridden offensive reference at row `i`, with the overrides in
reverse application order (the later corner/penalty writes win). -/
theorem offRef_getD (actions : List Action) (srf crf : List ℚ)
    (hsrf : srf.length = actions.length) (hcrf : crf.length = actions.length)
    {i : Nat} (hi : i < actions.length) :
    (offRef actions srf crf).getD i 0 =
      if (cornerMask actions).getD i false then corner_prior
      else if (penaltyMask actions).getD i false then penalty_prior
      else if (prevgoalMask actions).getD i false then 0
      else if (toolongMask actions).getD i false then 0
      else (offBase actions srf crf).getD i 0 := by
  have hbase := offBase_length actions srf crf hsrf hcrf
  rw [offRef,
    maskSet_getD _ _ _ (by simp [hbase, hi] <;> omega) (by simpa),
    maskSet_getD _ _ _ (by simp [hbase, hi] <;> omega) (by simpa),
    maskSet_getD _ _ _ (by simp [hbase, hi] <;> omega) (by simpa),
    maskSet_getD _ _ _ (by simp [hbase] <;> omega) (by simpa)]

/-- The overridden defensive reference at row `i`: only the timeout and
preceding-goal overrides exist. -/
theorem defRef_getD (actions : List Action) (srf crf : List ℚ)
    (hsrf : srf.length = actions.length) (hcrf : crf.length = actions.length)
    {i : Nat} (hi : i < actions.length) :
    (defRef actions srf crf).getD i 0 =
      if (prevgoalMask actions).getD i false then 0
      else if (toolongMask actions).getD i false then 0
      else (defBase actions srf crf).getD i 0 := by
  have hbase := defBase_length actions srf crf hsrf hcrf
  rw [defRef,
    maskSet_getD _ _ _ (by simp [hbase, hi] <;> omega) (by simpa),
    maskSet_getD _ _ _ (by simp [hbase] <;> omega) (by simpa)]

theorem offVals_getD (actions : List Action) (ss srf crf : List ℚ)
    (hss : ss.length = actions.length) (hsrf : srf.length = actions.length)
    (hcrf : crf.length = actions.length) {i : Nat} (hi : i < actions.length) :
    (offVals actions ss srf crf).getD i 0 =
      ss.getD i 0 - (offRef actions srf crf).getD i 0 :=
  getD_zipWith_of_lt _ _ _ (by omega)
    (by rw [offRef_length actions srf crf hsrf hcrf]; omega) _ _ _

theorem defVals_getD (actions : List Action) (srf cs crf : List ℚ)
    (hsrf : srf.length = actions.length) (hcs : cs.length = actions.length)
    (hcrf : crf.length = actions.length) {i : Nat} (hi : i < actions.length) :
    (defVals actions srf cs crf).getD i 0 =
      -(cs.getD i 0 - (defRef actions srf crf).getD i 0) :=
  getD_zipWith_of_lt _ _ _ (by omega)
    (by rw [defRef_length actions srf crf hsrf hcrf]; omega) _ _ _

theorem penaltyMask_getD (actions : List Action) {i : Nat}
    (hi : i < actions.length) :
    (penaltyMask actions).getD i false =
      ((actions.getD i default).type_name == "shot_penalty") := by
  rw [penaltyMask]
  exact getD_map_of_lt _ _ hi _ _

theorem cornerMask_getD (actions : List Action) {i : Nat}
    (hi : i < actions.length) :
    (cornerMask actions).getD i false =
      ((["corner_crossed", "corner_short"] : List String).contains
        (actions.getD i default).type_name) := by
  rw [cornerMask]
  exact getD_map_of_lt _ _ hi _ _

theorem sameteamList_getD_zero (actions : List Action) (hne : actions ≠ []) :
    (sameteamList actions).getD 0 false = true := by
  have hn : 0 < actions.length := List.length_pos.mpr hne
  rw [sameteamList, getD_zipWith_of_lt _ _ _ (by simpa) (by simpa) _ 0 0,
    listPrev_getD _ (by simpa) _]
  simp

theorem offBase_getD_zero (actions : List Action) (srf crf : List ℚ)
    (hne : actions ≠ []) (hsrf : srf ≠ []) (hcrf : crf ≠ []) :
    (offBase actions srf crf).getD 0 0 = srf.getD 0 0 := by
  have hn : 0 < actions.length := List.length_pos.mpr hne
  have hs : 0 < srf.length := List.length_pos.mpr hsrf
  have hc : 0 < crf.length := List.length_pos.mpr hcrf
  rw [offBase,
    getD_zipWith_of_lt _ _ _ (by simp; omega) (by simp; omega) _ 0 0,
    getD_zipWith_of_lt _ _ _ (by simpa) (by simpa) _ 0 false,
    getD_zipWith_of_lt _ _ _ (by simpa) (by simpa) _ 0 false,
    getD_map_of_lt _ _ (by simpa) _ false,
    sameteamList_getD_zero actions hne,
    listPrev_getD _ (by simpa) _]
  simp

end formula

namespace labels

/-! ### Frame lemmas for the store runs -/

theorem tbwRunStep_frame (ns : ℚ) (st : TbwRun) (i : Nat) :
    (tbwRunStep ns st i).actions = st.actions ∧ (tbwRunStep ns st i).y = st.y := by
  constructor <;> (simp only [tbwRunStep]; split <;> rfl)

theorem foldl_tbwRunStep_frame (ns : ℚ) (l : List Nat) (st : TbwRun) :
    ((l.foldl (tbwRunStep ns) st).actions = st.actions
      ∧ (l.foldl (tbwRunStep ns) st).y = st.y) := by
  induction l generalizing st with
  | nil => exact ⟨rfl, rfl⟩
  | cons a l ih =>
    rw [List.foldl_cons]
    rcases ih (tbwRunStep ns st a) with ⟨h₁, h₂⟩
    rcases tbwRunStep_frame ns st a with ⟨g₁, g₂⟩
    exact ⟨h₁.trans g₁, h₂.trans g₂⟩

/-! ### Empty-input behaviour -/

theorem scoresFold_nil (K : Int) : scoresFold (mkY []) K = [] :=
  List.length_eq_zero.mp (by simp)

theorem concedesFold_nil (K : Int) : concedesFold (mkY []) K = [] :=
  List.length_eq_zero.mp (by simp)

end labels

theorem isEmpty_false_of_ne {l : List α} (h : l ≠ []) : l.isEmpty = false := by
  cases l with
  | nil => exact absurd rfl h
  | cons a t => rfl

namespace labels

theorem scores_eq_some (actions : List Action) (K : Int) (hne : actions ≠ []) :
    scores actions K = some (scoresFold (mkY actions) K) := by
  rw [scores, isEmpty_false_of_ne hne]
  rfl

theorem concedes_eq_some (actions : List Action) (K : Int) (hne : actions ≠ []) :
    concedes actions K = some (concedesFold (mkY actions) K) := by
  rw [concedes, isEmpty_false_of_ne hne]
  rfl

theorem scores_tbw_eq_some (actions : List Action) (ns : ℚ) (K : Int)
    (hne : actions ≠ []) :
    scores_time_based_window actions ns K = some (scoresTbwList actions ns K) := by
  rw [scores_time_based_window, isEmpty_false_of_ne hne]
  rfl

theorem concedes_tbw_eq_some (actions : List Action) (ns : ℚ) (K : Int)
    (hne : actions ≠ []) :
    concedes_time_based_window actions ns K = some (concedesTbwList actions ns K) := by
  rw [concedes_time_based_window, isEmpty_false_of_ne hne]
  rfl

/-- The accumulated count-based label series equals the spec-side series
(unconditionally: both are empty on an empty table). -/
theorem scoresFold_eq_specList (actions : List Action) (K : Int) :
    scoresFold (mkY actions) K = labelspec.scoresSpecList actions K := by
  apply List.ext_getElem
  · simp [labelspec.scoresSpecList]
  · intro i h₁ h₂
    have hi : i < actions.length := by simpa [labelspec.scoresSpecList] using h₂
    rw [← List.getD_eq_getElem _ false h₁, ← List.getD_eq_getElem _ false h₂,
      scoresFold_eq_spec actions K i hi, labelspec.scoresSpecList,
      getD_map_range _ hi]

theorem concedesFold_eq_specList (actions : List Action) (K : Int) :
    concedesFold (mkY actions) K = labelspec.concedesSpecList actions K := by
  apply List.ext_getElem
  · simp [labelspec.concedesSpecList]
  · intro i h₁ h₂
    have hi : i < actions.length := by simpa [labelspec.concedesSpecList] using h₂
    rw [← List.getD_eq_getElem _ false h₁, ← List.getD_eq_getElem _ false h₂,
      concedesFold_eq_spec actions K i hi, labelspec.concedesSpecList,
      getD_map_range _ hi]

end labels

namespace labelspec

/-- At the last row every saturated offset collapses to the row itself,
so the spec formula reduces to the row's own goal flag. -/
theorem scoresSpecAt_last (actions : List Action) (K : Int) :
    scoresSpecAt actions K (actions.length - 1)
      = spadl.goalFlag (actions.getD (actions.length - 1) default) := by
  simp only [scoresSpecAt]
  have hmin : ∀ k : Nat,
      min (actions.length - 1 + k) (actions.length - 1) = actions.length - 1 :=
    fun k => by omega
  simp only [hmin, beq_self_eq_true, bne_self_eq_false, Bool.and_true,
    Bool.and_false, Bool.or_false]
  cases hg : spadl.goalFlag (actions.getD (actions.length - 1) default) <;>
    simp [List.any_eq_true, hg]

theorem concedesSpecAt_last (actions : List Action) (K : Int) :
    concedesSpecAt actions K (actions.length - 1)
      = spadl.owngoalFlag (actions.getD (actions.length - 1) default) := by
  simp only [concedesSpecAt]
  have hmin : ∀ k : Nat,
      min (actions.length - 1 + k) (actions.length - 1) = actions.length - 1 :=
    fun k => by omega
  simp only [hmin, beq_self_eq_true, bne_self_eq_false, Bool.and_true,
    Bool.and_false, Bool.or_false, Bool.false_or]
  cases hg : spadl.owngoalFlag (actions.getD (actions.length - 1) default) <;>
    simp [List.any_eq_true, hg]

end labelspec

/-! ## Claim theorems -/

/-- C1: for every non-empty pre-sorted action sequence and every horizon
`K ≥ 1`, the count-based labelers compute exactly the spec formula:
`scores[i]` is true iff `goal[i]`, or for some `k` in `1..K-1` the
saturated offset satisfies `goal[i+k]` with the same team or
`owngoal[i+k]` with a different team; `concedes[i]` mirrors the team
conditions, starting from `owngoal[i]`; offsets past the end take the
last action's values. -/
theorem count_labelers_match_spec_formula (actions : List Action) (K : Int)
    (hne : actions ≠ []) (hsort : spadl.presorted actions = true) (hK : 1 ≤ K) :
    labels.scores actions K = some (labelspec.scoresSpecList actions K)
    ∧ labels.concedes actions K = some (labelspec.concedesSpecList actions K) :=
  ⟨by rw [labels.scores_eq_some actions K hne, labels.scoresFold_eq_specList],
    by rw [labels.concedes_eq_some actions K hne, labels.concedesFold_eq_specList]⟩

/-- Witness for C1 on the spec §8 three-action scenario with `K = 2`. -/
theorem count_labelers_match_spec_formula_witness :
    demo ≠ [] ∧ spadl.presorted demo = true ∧ (1 : Int) ≤ 2
    ∧ (labels.scores demo 2 = some (labelspec.scoresSpecList demo 2)
        ∧ labels.concedes demo 2 = some (labelspec.concedesSpecList demo 2)) :=
  ⟨by decide, by decide, by decide,
    count_labelers_match_spec_formula demo 2 (by decide) (by decide) (by decide)⟩

/-- C5: for every non-empty sequence and `K > 1`, the count-based label
of the last action is exactly its own goal (resp. owngoal) flag. -/
theorem last_action_label_is_own_flag (actions : List Action) (K : Int)
    (hne : actions ≠ []) (hK : 1 < K) :
    ((labels.scores actions K).getD []).getD (actions.length - 1) false
      = spadl.goalFlag (actions.getD (actions.length - 1) default)
    ∧ ((labels.concedes actions K).getD []).getD (actions.length - 1) false
      = spadl.owngoalFlag (actions.getD (actions.length - 1) default) := by
  have hn : 0 < actions.length := List.length_pos.mpr hne
  have hi : actions.length - 1 < actions.length := by omega
  constructor
  · rw [labels.scores_eq_some actions K hne, Option.getD_some,
      labels.scoresFold_eq_spec actions K _ hi, labelspec.scoresSpecAt_last]
  · rw [labels.concedes_eq_some actions K hne, Option.getD_some,
      labels.concedesFold_eq_spec actions K _ hi, labelspec.concedesSpecAt_last]

/-- Witness for C5 on the three-action scenario with `K = 4`. -/
theorem last_action_label_is_own_flag_witness :
    demo ≠ [] ∧ (1 : Int) < 4
    ∧ (((labels.scores demo 4).getD []).getD (demo.length - 1) false
          = spadl.goalFlag (demo.getD (demo.length - 1) default)
        ∧ ((labels.concedes demo 4).getD []).getD (demo.length - 1) false
          = spadl.owngoalFlag (demo.getD (demo.length - 1) default)) :=
  ⟨by decide, by decide, last_action_label_is_own_flag demo 4 (by decide) (by decide)⟩

/-- C6: the count-based labels are monotone in the horizon: a label true
under `K₁` stays true under any `K₂ ≥ K₁`. -/
theorem count_labels_monotone_in_horizon (actions : List Action) (K₁ K₂ : Int)
    (hne : actions ≠ []) (hK₁ : 1 ≤ K₁) (hK : K₁ ≤ K₂) (i : Nat) :
    (((labels.scores actions K₁).getD []).getD i false = true →
      ((labels.scores actions K₂).getD []).getD i false = true)
    ∧ (((labels.concedes actions K₁).getD []).getD i false = true →
      ((labels.concedes actions K₂).getD []).getD i false = true) := by
  rw [labels.scores_eq_some actions K₁ hne, labels.scores_eq_some actions K₂ hne,
    labels.concedes_eq_some actions K₁ hne, labels.concedes_eq_some actions K₂ hne]
  simp only [Option.getD_some]
  have hsub : ∀ k ∈ labels.offsets K₁, k ∈ labels.offsets K₂ := by
    intro k hk
    rcases List.mem_map.mp hk with ⟨j, hj, rfl⟩
    have hj' := List.mem_range.mp hj
    exact List.mem_map.mpr ⟨j, List.mem_range.mpr (by omega), rfl⟩
  by_cases hi : i < actions.length
  · rw [labels.scoresFold_getD _ _ _ (by simpa using hi),
      labels.scoresFold_getD _ _ _ (by simpa using hi),
      labels.concedesFold_getD _ _ _ (by simpa using hi),
      labels.concedesFold_getD _ _ _ (by simpa using hi)]
    constructor <;> intro h <;> rw [Bool.or_eq_true] at h ⊢ <;>
      rcases h with h' | h'
    · exact Or.inl h'
    · rcases List.any_eq_true.mp h' with ⟨k, hk, hpk⟩
      exact Or.inr (List.any_eq_true.mpr ⟨k, hsub k hk, hpk⟩)
    · exact Or.inl h'
    · rcases List.any_eq_true.mp h' with ⟨k, hk, hpk⟩
      exact Or.inr (List.any_eq_true.mpr ⟨k, hsub k hk, hpk⟩)
  · have h₁ : (labels.scoresFold (labels.mkY actions) K₁).getD i false = false :=
      List.getD_eq_default _ _ (by simp; omega)
    have h₂ : (labels.concedesFold (labels.mkY actions) K₁).getD i false = false :=
      List.getD_eq_default _ _ (by simp; omega)
    rw [h₁, h₂]
    exact ⟨fun h => absurd h (by simp), fun h => absurd h (by simp)⟩

/-- Witness for C6 on the three-action scenario with `K₁ = 2 ≤ K₂ = 5`
at the first row (whose `scores` label is true under `K₁`). -/
theorem count_labels_monotone_in_horizon_witness :
    demo ≠ [] ∧ (1 : Int) ≤ 2 ∧ (2 : Int) ≤ 5
    ∧ ((((labels.scores demo 2).getD []).getD 0 false = true →
          ((labels.scores demo 5).getD []).getD 0 false = true)
        ∧ (((labels.concedes demo 2).getD []).getD 0 false = true →
          ((labels.concedes demo 5).getD []).getD 0 false = true)) :=
  ⟨by decide, by decide, by decide,
    count_labels_monotone_in_horizon demo 2 5 (by decide) (by decide) (by decide) 0⟩

/-- C10: with `nr_seconds = 0` the forward time scan never runs (the
absolute time difference is never strictly below zero), so the time-based
labelers coincide with the count-based labelers at horizon `nr_actions`. -/
theorem tbw_zero_seconds_equals_count (actions : List Action) (nr_actions : Int)
    (hK : 1 ≤ nr_actions) :
    labels.scores_time_based_window actions 0 nr_actions
      = labels.scores actions nr_actions
    ∧ labels.concedes_time_based_window actions 0 nr_actions
      = labels.concedes actions nr_actions := by
  rcases labels.tbwList_eq_fold_of_nonpos actions 0 le_rfl nr_actions with ⟨h₁, h₂⟩
  constructor
  · rw [labels.scores_time_based_window, labels.scores, h₁]
  · rw [labels.concedes_time_based_window, labels.concedes, h₂]

/-- Witness for C10 on the three-action scenario with `nr_actions = 3`. -/
theorem tbw_zero_seconds_equals_count_witness :
    (1 : Int) ≤ 3
    ∧ (labels.scores_time_based_window demo 0 3 = labels.scores demo 3
        ∧ labels.concedes_time_based_window demo 0 3 = labels.concedes demo 3) :=
  ⟨by decide, tbw_zero_seconds_equals_count demo 3 (by decide)⟩

/-- C7 counterexample: a call with non-positive configuration is NOT
rejected with an error — `scores` with `nr_actions = 0` (and `-5`), and
the time-based labeler with `nr_seconds = 0`, all return a label series
(the claim says they must be rejected at the call boundary). -/
theorem nonpositive_config_not_rejected_cex :
    labels.scores [demoPass] 0 = some [false]
    ∧ labels.scores_time_based_window [demoPass] 0 3 = some [false]
    ∧ labels.concedes [demoPass] (-5) = some [false] := by
  decide

/-- C7 amended: non-positive configuration values are accepted, not
rejected: a count-based labeler with `nr_actions ≤ 1` (hence any
non-positive value) runs `range(1, nr_actions)` zero times and returns
each action's own goal/owngoal flag, and a time-based labeler with
`nr_seconds ≤ 0` performs no time scan, returning the count-based labels
of its `nr_actions` pre-check. -/
theorem nonpositive_config_degrades (actions : List Action) (K K₂ : Int)
    (hK : K ≤ 1) (ns : ℚ) (hns : ns ≤ 0) :
    labels.scores actions K = some (actions.map spadl.goalFlag)
    ∧ labels.concedes actions K = some (actions.map spadl.owngoalFlag)
    ∧ labels.scores_time_based_window actions ns K₂ = labels.scores actions K₂
    ∧ labels.concedes_time_based_window actions ns K₂ = labels.concedes actions K₂ := by
  have h0 : (K - 1).toNat = 0 := by omega
  have hoff : labels.offsets K = [] := by simp [labels.offsets, h0]
  have hdec : decide (1 < K) = false := by simp; omega
  have hsc : labels.scoresFold (labels.mkY actions) K = actions.map spadl.goalFlag := by
    rw [labels.scoresFold, hoff, List.foldl_nil, labels.goalCol, labels.mkY,
      List.map_map]
    rfl
  have hcc : labels.concedesFold (labels.mkY actions) K
      = actions.map spadl.owngoalFlag := by
    rw [labels.concedesFold, hoff, List.foldl_nil, labels.owngoalCol, labels.mkY,
      List.map_map]
    rfl
  rcases labels.tbwList_eq_fold_of_nonpos actions ns hns K₂ with ⟨h₁, h₂⟩
  refine ⟨?_, ?_, ?_, ?_⟩
  · rw [labels.scores, hdec, Bool.and_false, hsc]
    rfl
  · rw [labels.concedes, hdec, Bool.and_false, hcc]
    rfl
  · rw [labels.scores_time_based_window, labels.scores, h₁]
  · rw [labels.concedes_time_based_window, labels.concedes, h₂]

/-- Witness for the amended C7: `nr_actions = 0`, `nr_seconds = -1`. -/
theorem nonpositive_config_degrades_witness :
    (0 : Int) ≤ 1 ∧ (-1 : ℚ) ≤ 0
    ∧ (labels.scores demo 0 = some (demo.map spadl.goalFlag)
        ∧ labels.concedes demo 0 = some (demo.map spadl.owngoalFlag)
        ∧ labels.scores_time_based_window demo (-1) 3 = labels.scores demo 3
        ∧ labels.concedes_time_based_window demo (-1) 3 = labels.concedes demo 3) :=
  ⟨by decide, by decide, nonpositive_config_degrades demo 0 3 (by decide) (-1) (by decide)⟩

/-- C4 counterexample: a zero-length input does NOT produce a zero-length
output for every labeler and the value formula — `scores` with the default
horizon 10 evaluates `iloc[-1]` on an empty series and raises
(`none` in this embedding), and the value formula's `_prev` evaluates
`x.values[0]` and raises. -/
theorem empty_input_raises_cex :
    labels.scores [] 10 = none ∧ formula.value [] [] [] [] [] = none := by
  decide

/-- C4 amended: output length and row order equal input length/order for
every non-empty input (and aligned probability series), for any `K` and
`nr_seconds`; on a zero-length input the count- and time-based labelers
return an empty series only when `nr_actions ≤ 1` and raise otherwise,
and the value formula always raises. -/
theorem length_preservation_on_nonempty (actions : List Action)
    (hne : actions ≠ []) (K : Int) (ns : ℚ) (ss srf cs crf : List ℚ)
    (hss : ss.length = actions.length) (hsrf : srf.length = actions.length)
    (hcs : cs.length = actions.length) (hcrf : crf.length = actions.length) :
    (labels.scores actions K = some (labels.scoresFold (labels.mkY actions) K)
      ∧ (labels.scoresFold (labels.mkY actions) K).length = actions.length)
    ∧ (labels.concedes actions K = some (labels.concedesFold (labels.mkY actions) K)
      ∧ (labels.concedesFold (labels.mkY actions) K).length = actions.length)
    ∧ (labels.scores_time_based_window actions ns K
        = some (labels.scoresTbwList actions ns K)
      ∧ (labels.scoresTbwList actions ns K).length = actions.length)
    ∧ (labels.concedes_time_based_window actions ns K
        = some (labels.concedesTbwList actions ns K)
      ∧ (labels.concedesTbwList actions ns K).length = actions.length)
    ∧ (formula.value actions ss srf cs crf
        = some (formula.offVals actions ss srf crf,
            formula.defVals actions srf cs crf,
            List.zipWith (· + ·) (formula.offVals actions ss srf crf)
              (formula.defVals actions srf cs crf))
      ∧ (formula.offVals actions ss srf crf).length = actions.length
      ∧ (formula.defVals actions srf cs crf).length = actions.length
      ∧ (List.zipWith (· + ·) (formula.offVals actions ss srf crf)
          (formula.defVals actions srf cs crf)).length = actions.length)
    ∧ (∀ K' : Int, labels.scores [] K' = if 1 < K' then none else some [])
    ∧ (∀ K' : Int, labels.concedes [] K' = if 1 < K' then none else some [])
    ∧ formula.value [] [] [] [] [] = none := by
  have hsrfne : srf ≠ [] := by
    intro h
    rw [h] at hsrf
    exact hne (List.length_eq_zero.mp (by simpa using hsrf.symm))
  have hcrfne : crf ≠ [] := by
    intro h
    rw [h] at hcrf
    exact hne (List.length_eq_zero.mp (by simpa using hcrf.symm))
  have hov : formula.offensive_value actions ss srf crf
      = some (formula.offVals actions ss srf crf) := by
    rw [formula.offensive_value, isEmpty_false_of_ne hne,
      isEmpty_false_of_ne hsrfne, isEmpty_false_of_ne hcrfne]
    rfl
  have hdv : formula.defensive_value actions srf cs crf
      = some (formula.defVals actions srf cs crf) := by
    rw [formula.defensive_value, isEmpty_false_of_ne hne,
      isEmpty_false_of_ne hsrfne, isEmpty_false_of_ne hcrfne]
    rfl
  refine ⟨⟨labels.scores_eq_some actions K hne, by simp⟩,
    ⟨labels.concedes_eq_some actions K hne, by simp⟩,
    ⟨labels.scores_tbw_eq_some actions ns K hne, by simp⟩,
    ⟨labels.concedes_tbw_eq_some actions ns K hne, by simp⟩,
    ⟨?_, formula.offVals_length actions ss srf crf hss hsrf hcrf,
      formula.defVals_length actions srf cs crf hsrf hcs hcrf, ?_⟩,
    ?_, ?_, by decide⟩
  · rw [formula.value, hov, hdv]
  · rw [List.length_zipWith,
      formula.offVals_length actions ss srf crf hss hsrf hcrf,
      formula.defVals_length actions srf cs crf hsrf hcs hcrf]
    omega
  · intro K'
    by_cases h : 1 < K'
    · rw [labels.scores, if_pos (by simp [h]), if_pos h]
    · rw [labels.scores, if_neg (by simp [h]), if_neg h, labels.scoresFold_nil]
  · intro K'
    by_cases h : 1 < K'
    · rw [labels.concedes, if_pos (by simp [h]), if_pos h]
    · rw [labels.concedes, if_neg (by simp [h]), if_neg h, labels.concedesFold_nil]

/-- Witness for the amended C4 on the three-action scenario. -/
theorem length_preservation_on_nonempty_witness :
    demo ≠ []
    ∧ ([(1 : ℚ), 0, 1].length = demo.length ∧ [(0 : ℚ), 1, 0].length = demo.length)
    ∧ ((labels.scores demo 10 = some (labels.scoresFold (labels.mkY demo) 10)
          ∧ (labels.scoresFold (labels.mkY demo) 10).length = demo.length)
        ∧ (labels.concedes demo 10 = some (labels.concedesFold (labels.mkY demo) 10)
          ∧ (labels.concedesFold (labels.mkY demo) 10).length = demo.length)
        ∧ (labels.scores_time_based_window demo 15 10
            = some (labels.scoresTbwList demo 15 10)
          ∧ (labels.scoresTbwList demo 15 10).length = demo.length)
        ∧ (labels.concedes_time_based_window demo 15 10
            = some (labels.concedesTbwList demo 15 10)
          ∧ (labels.concedesTbwList demo 15 10).length = demo.length)
        ∧ (formula.value demo [(1 : ℚ), 0, 1] [(0 : ℚ), 1, 0] [(1 : ℚ), 0, 1]
              [(0 : ℚ), 1, 0]
            = some (formula.offVals demo [(1 : ℚ), 0, 1] [(0 : ℚ), 1, 0]
                [(0 : ℚ), 1, 0],
                formula.defVals demo [(0 : ℚ), 1, 0] [(1 : ℚ), 0, 1]
                  [(0 : ℚ), 1, 0],
                List.zipWith (· + ·)
                  (formula.offVals demo [(1 : ℚ), 0, 1] [(0 : ℚ), 1, 0]
                    [(0 : ℚ), 1, 0])
                  (formula.defVals demo [(0 : ℚ), 1, 0] [(1 : ℚ), 0, 1]
                    [(0 : ℚ), 1, 0]))
          ∧ (formula.offVals demo [(1 : ℚ), 0, 1] [(0 : ℚ), 1, 0]
              [(0 : ℚ), 1, 0]).length = demo.length
          ∧ (formula.defVals demo [(0 : ℚ), 1, 0] [(1 : ℚ), 0, 1]
              [(0 : ℚ), 1, 0]).length = demo.length
          ∧ (List.zipWith (· + ·)
              (formula.offVals demo [(1 : ℚ), 0, 1] [(0 : ℚ), 1, 0]
                [(0 : ℚ), 1, 0])
              (formula.defVals demo [(0 : ℚ), 1, 0] [(1 : ℚ), 0, 1]
                [(0 : ℚ), 1, 0])).length = demo.length)
        ∧ (∀ K' : Int, labels.scores [] K' = if 1 < K' then none else some [])
        ∧ (∀ K' : Int, labels.concedes [] K' = if 1 < K' then none else some [])
        ∧ formula.value [] [] [] [] [] = none) :=
  ⟨by decide, ⟨by decide, by decide⟩,
    length_preservation_on_nonempty demo (by decide) 10 15
      [(1 : ℚ), 0, 1] [(0 : ℚ), 1, 0] [(1 : ℚ), 0, 1] [(0 : ℚ), 1, 0]
      (by decide) (by decide) (by decide) (by decide)⟩

namespace formula

theorem offensive_value_eq_some (actions : List Action) (ss srf crf : List ℚ)
    (hne : actions ≠ []) (hsrf : srf ≠ []) (hcrf : crf ≠ []) :
    offensive_value actions ss srf crf = some (offVals actions ss srf crf) := by
  rw [offensive_value, isEmpty_false_of_ne hne, isEmpty_false_of_ne hsrf,
    isEmpty_false_of_ne hcrf]
  rfl

theorem defensive_value_eq_some (actions : List Action) (srf cs crf : List ℚ)
    (hne : actions ≠ []) (hsrf : srf ≠ []) (hcrf : crf ≠ []) :
    defensive_value actions srf cs crf = some (defVals actions srf cs crf) := by
  rw [defensive_value, isEmpty_false_of_ne hne, isEmpty_false_of_ne hsrf,
    isEmpty_false_of_ne hcrf]
  rfl

theorem value_eq_some (actions : List Action) (ss srf cs crf : List ℚ)
    (hne : actions ≠ []) (hsrf : srf ≠ []) (hcrf : crf ≠ []) :
    value actions ss srf cs crf
      = some (offVals actions ss srf crf, defVals actions srf cs crf,
          List.zipWith (· + ·) (offVals actions ss srf crf)
            (defVals actions srf cs crf)) := by
  rw [value, offensive_value_eq_some actions ss srf crf hne hsrf hcrf,
    defensive_value_eq_some actions srf cs crf hne hsrf hcrf]

end formula

/-- C2: for any action sequence and aligned in-`[0,1]` probability series,
an action of type penalty shot has
`offensive_value = scores_standard - 0.792453` and a short/crossed corner
has `offensive_value = scores_standard - 0.046500`, regardless of the
team-continuity, phase-timeout and preceding-goal rules; and these
fixed-prior overrides do not apply to `defensive_value` (witnessed by a
penalty action whose defensive value follows rules 1–3 only and differs
from both would-be overridden values). -/
theorem fixed_prior_overrides (actions : List Action) (ss srf crf : List ℚ)
    (hss : ss.length = actions.length) (hsrf : srf.length = actions.length)
    (hcrf : crf.length = actions.length)
    (hprob : ∀ x ∈ ss ++ srf ++ crf, 0 ≤ x ∧ x ≤ 1) (i : Nat)
    (hi : i < actions.length) :
    ((actions.getD i default).type_name = "shot_penalty" →
      formula.offensive_value actions ss srf crf
          = some (formula.offVals actions ss srf crf)
        ∧ (formula.offVals actions ss srf crf).getD i 0
          = ss.getD i 0 - formula.penalty_prior)
    ∧ ((actions.getD i default).type_name = "corner_short"
        ∨ (actions.getD i default).type_name = "corner_crossed" →
      (formula.offVals actions ss srf crf).getD i 0
        = ss.getD i 0 - formula.corner_prior)
    ∧ (formula.defensive_value [penAct] [0] [1] [1] = some [0]
        ∧ (0 : ℚ) ≠ -((1 : ℚ) - formula.penalty_prior)
        ∧ (0 : ℚ) ≠ -((1 : ℚ) - formula.corner_prior)) := by
  have hne : actions ≠ [] := by
    intro h
    rw [h] at hi
    exact absurd hi (by simp)
  have hsrfne : srf ≠ [] := by
    intro h
    rw [h] at hsrf
    exact hne (List.length_eq_zero.mp (by simpa using hsrf.symm))
  have hcrfne : crf ≠ [] := by
    intro h
    rw [h] at hcrf
    exact hne (List.length_eq_zero.mp (by simpa using hcrf.symm))
  refine ⟨fun hpen => ⟨formula.offensive_value_eq_some actions ss srf crf hne
      hsrfne hcrfne, ?_⟩, fun hcor => ?_, ?_, ?_, ?_⟩
  · rw [formula.offVals_getD actions ss srf crf hss hsrf hcrf hi,
      formula.offRef_getD actions srf crf hsrf hcrf hi,
      formula.cornerMask_getD actions hi, formula.penaltyMask_getD actions hi,
      hpen]
    have h₁ : ((["corner_crossed", "corner_short"] : List String).contains
        "shot_penalty") = false := by decide
    have h₂ : ("shot_penalty" == "shot_penalty") = true := by decide
    rw [h₁, h₂]
    simp
  · rw [formula.offVals_getD actions ss srf crf hss hsrf hcrf hi,
      formula.offRef_getD actions srf crf hsrf hcrf hi,
      formula.cornerMask_getD actions hi]
    rcases hcor with h | h <;> rw [h]
    · have h₁ : ((["corner_crossed", "corner_short"] : List String).contains
          "corner_short") = true := by decide
      rw [h₁]
      simp
    · have h₁ : ((["corner_crossed", "corner_short"] : List String).contains
          "corner_crossed") = true := by decide
      rw [h₁]
      simp
  · rw [formula.defensive_value_eq_some [penAct] [0] [1] [1] (by simp) (by simp)
      (by simp)]
    refine congrArg some ?_
    norm_num [formula.defVals, formula.defRef, formula.defBase, formula.maskSet,
      formula.sameteamList, formula.listPrev, formula.toolongMask,
      formula.prevgoalMask, formula.samephase_nb, penAct, List.range_succ]
    rw [if_neg (by decide : ¬ (("fail" : String) = "success"))]
    norm_num
  · norm_num [formula.penalty_prior]
  · norm_num [formula.corner_prior]

/-- Witness for C2 at a single penalty action with probabilities in
`{0, 1}`. -/
theorem fixed_prior_overrides_witness :
    [(1 : ℚ)].length = [penAct].length ∧ [(0 : ℚ)].length = [penAct].length
    ∧ (∀ x ∈ [(1 : ℚ)] ++ [(0 : ℚ)] ++ [(0 : ℚ)], 0 ≤ x ∧ x ≤ 1)
    ∧ (0 : Nat) < [penAct].length
    ∧ (formula.offensive_value [penAct] [1] [0] [0]
        = some (formula.offVals [penAct] [1] [0] [0])
      ∧ (formula.offVals [penAct] [1] [0] [0]).getD 0 0
        = [(1 : ℚ)].getD 0 0 - formula.penalty_prior) :=
  ⟨by decide, by decide, by decide, by decide,
    (fixed_prior_overrides [penAct] [1] [0] [0] (by decide) (by decide) (by decide)
      (by decide) 0 (by decide)).1 rfl⟩

/-- C8: the "preceding" reference of the first action resolves to the
action itself — `sameteam` holds trivially at row 0 and the base
reference (before overrides) is the first action's own resultfree
probability — and a single-action sequence flows through the whole value
formula without error. -/
theorem first_action_reference_is_self (actions : List Action) (srf crf : List ℚ)
    (hne : actions ≠ []) (hsrf : srf ≠ []) (hcrf : crf ≠ []) :
    (formula.sameteamList actions).getD 0 false = true
    ∧ (formula.offBase actions srf crf).getD 0 0 = srf.getD 0 0
    ∧ ∀ (a : Action) (s₁ s₂ s₃ s₄ : ℚ),
        (formula.value [a] [s₁] [s₂] [s₃] [s₄]).isSome = true := by
  refine ⟨formula.sameteamList_getD_zero actions hne,
    formula.offBase_getD_zero actions srf crf hne hsrf hcrf, ?_⟩
  intro a s₁ s₂ s₃ s₄
  rw [formula.value_eq_some [a] [s₁] [s₂] [s₃] [s₄] (by simp) (by simp) (by simp)]
  rfl

/-- Witness for C8 on the three-action scenario. -/
theorem first_action_reference_is_self_witness :
    demo ≠ [] ∧ [(0 : ℚ)] ≠ [] ∧ [(1 : ℚ)] ≠ []
    ∧ ((formula.sameteamList demo).getD 0 false = true
      ∧ (formula.offBase demo [0] [1]).getD 0 0 = [(0 : ℚ)].getD 0 0
      ∧ ∀ (a : Action) (s₁ s₂ s₃ s₄ : ℚ),
          (formula.value [a] [s₁] [s₂] [s₃] [s₄]).isSome = true) :=
  ⟨by decide, by decide, by decide,
    first_action_reference_is_self demo [0] [1] (by decide) (by decide) (by decide)⟩

/-- C9: neither the labelers nor the value formula mutate their inputs:
in the store model of `offensive_value` and of
`scores_time_based_window`, every in-place write targets a freshly
created intermediate series (`prev_scores_resultfree`, resp. the frame
`y` and the label series `res`), and the caller-supplied fields are
unchanged by the run. -/
theorem engine_does_not_mutate_inputs :
    ∀ (actions : List Action) (ss srf crf : List ℚ) (ns : ℚ) (K : Int),
      ((formula.offensiveRun actions ss srf crf).actions = actions
        ∧ (formula.offensiveRun actions ss srf crf).scores_standard = ss
        ∧ (formula.offensiveRun actions ss srf crf).scores_resultfree = srf
        ∧ (formula.offensiveRun actions ss srf crf).concedes_resultfree = crf)
      ∧ ((labels.scoresTbwRun actions ns K).actions = actions
        ∧ (labels.scoresTbwRun actions ns K).y = labels.mkY actions) := by
  intro actions ss srf crf ns K
  refine ⟨⟨rfl, rfl, rfl, rfl⟩, ?_⟩
  exact labels.foldl_tbwRunStep_frame ns (List.range actions.length)
    ⟨actions, labels.mkY actions, labels.scoresFold (labels.mkY actions) K⟩

/-! ### Supporting lemmas for the period-boundary analysis (C3) -/

theorem getD_drop_of_lt (l : List α) (m j : Nat) (h : m + j < l.length) (d : α) :
    (l.drop m).getD j d = l.getD (m + j) d := by
  rw [List.getD_eq_getElem _ _ (by simp; omega), List.getD_eq_getElem _ _ h]
  exact List.getElem_drop ..

theorem getD_take_of_lt (l : List α) (m j : Nat) (h : j < m) (hl : j < l.length)
    (d : α) : (l.take m).getD j d = l.getD j d := by
  rw [List.getD_eq_getElem _ _ (by simp; omega), List.getD_eq_getElem _ _ hl]
  exact List.getElem_take ..

theorem drop_eq_take_append (l : List α) (m k : Nat) (hmk : m ≤ k) :
    l.drop m = (l.drop m).take (k - m) ++ l.drop k := by
  have h := List.take_append_drop (k - m) (l.drop m)
  rw [List.drop_drop, show m + (k - m) = k from by omega] at h
  exact h.symm

/-- If two sequences agree up to index `e ≥ i` and all their rows past
`e` fail the time bound relative to `t0`, the forward scan from `i + 1`
cannot distinguish them. -/
theorem scan_agree_of_far (hit : Action → Bool) (t0 ns : ℚ)
    (seq₁ seq₂ : List Action) (i e : Nat) (hie : i ≤ e)
    (he₁ : e < seq₁.length) (he₂ : e < seq₂.length)
    (hagree : ∀ j, j ≤ e → seq₁.getD j default = seq₂.getD j default)
    (htime₁ : ∀ j, e < j → j < seq₁.length →
        ¬ (|(seq₁.getD j default).time_seconds - t0| < ns))
    (htime₂ : ∀ j, e < j → j < seq₂.length →
        ¬ (|(seq₂.getD j default).time_seconds - t0| < ns)) :
    labels.scanFound hit t0 ns (seq₁.drop (i + 1))
      = labels.scanFound hit t0 ns (seq₂.drop (i + 1)) := by
  have hcommon : (seq₁.drop (i + 1)).take (e + 1 - (i + 1))
      = (seq₂.drop (i + 1)).take (e + 1 - (i + 1)) := by
    apply List.ext_getElem
    · simp only [List.length_take, List.length_drop]
      omega
    · intro j h₁ h₂
      have hj : j < e + 1 - (i + 1) := by
        simp only [List.length_take, List.length_drop] at h₁
        omega
      rw [← List.getD_eq_getElem _ default h₁, ← List.getD_eq_getElem _ default h₂,
        getD_take_of_lt _ _ _ hj (by simp; omega) _,
        getD_take_of_lt _ _ _ hj (by simp; omega) _,
        getD_drop_of_lt _ _ _ (by omega) _, getD_drop_of_lt _ _ _ (by omega) _]
      exact hagree (i + 1 + j) (by omega)
  have htail : ∀ (seq : List Action)
      (ht : ∀ j, e < j → j < seq.length →
        ¬ (|(seq.getD j default).time_seconds - t0| < ns)),
      ∀ a ∈ seq.drop (e + 1), ¬ (|a.time_seconds - t0| < ns) := by
    intro seq ht a ha
    rcases List.mem_iff_getElem.mp ha with ⟨j, hj, hja⟩
    have hjl : e + 1 + j < seq.length := by
      simp only [List.length_drop] at hj
      omega
    have hh : (seq.drop (e + 1)).getD j default = seq.getD (e + 1 + j) default :=
      getD_drop_of_lt _ _ _ hjl _
    rw [List.getD_eq_getElem _ _ (by simp; omega), hja] at hh
    rw [hh]
    exact ht (e + 1 + j) (by omega) hjl
  rw [drop_eq_take_append seq₁ (i + 1) (e + 1) (by omega),
    drop_eq_take_append seq₂ (i + 1) (e + 1) (by omega), hcommon]
  exact labels.scanFound_agree hit t0 ns _ _ _
    (htail seq₁ htime₁) (htail seq₂ htime₂)

/-- If two sequences agree up to `e` and the whole count window from `i`
stays within the agreeing block, the spec-side `scores` formula agrees. -/
theorem scoresSpecAt_agree (seq₁ seq₂ : List Action) (K : Int) (i e : Nat)
    (hie : i ≤ e) (he₁ : e < seq₁.length) (he₂ : e < seq₂.length)
    (hagree : ∀ j, j ≤ e → seq₁.getD j default = seq₂.getD j default)
    (hK : i + (K - 1).toNat ≤ e) :
    labelspec.scoresSpecAt seq₁ K i = labelspec.scoresSpecAt seq₂ K i := by
  simp only [labelspec.scoresSpecAt, hagree i hie]
  congr 1
  apply any_congr_mem
  intro k hk
  obtain ⟨hk1, hk2⟩ := mem_specOffsets K k hk
  have hik : i + k ≤ e := by omega
  have hmin₁ : min (i + k) (seq₁.length - 1) = i + k := by omega
  have hmin₂ : min (i + k) (seq₂.length - 1) = i + k := by omega
  simp only [hmin₁, hmin₂, hagree (i + k) hik]

theorem concedesSpecAt_agree (seq₁ seq₂ : List Action) (K : Int) (i e : Nat)
    (hie : i ≤ e) (he₁ : e < seq₁.length) (he₂ : e < seq₂.length)
    (hagree : ∀ j, j ≤ e → seq₁.getD j default = seq₂.getD j default)
    (hK : i + (K - 1).toNat ≤ e) :
    labelspec.concedesSpecAt seq₁ K i = labelspec.concedesSpecAt seq₂ K i := by
  simp only [labelspec.concedesSpecAt, hagree i hie]
  congr 1
  apply any_congr_mem
  intro k hk
  obtain ⟨hk1, hk2⟩ := mem_specOffsets K k hk
  have hik : i + k ≤ e := by omega
  have hmin₁ : min (i + k) (seq₁.length - 1) = i + k := by omega
  have hmin₂ : min (i + k) (seq₂.length - 1) = i + k := by omega
  simp only [hmin₁, hmin₂, hagree (i + k) hik]

/-- C3 counterexample: the time-based `scores` label DOES depend on
actions of a different period.  `leakGoal` and `leakPass` agree on every
period-1 action; their period-2 actions differ (goal vs pass) and lie one
second into the new period, so `|1 - 3| = 2 < 15` lets the scan cross the
boundary (and the count-based pre-check ignores periods entirely): the
label of the period-1 action at index 0 flips from true to false. -/
theorem tbw_period_leak_cex :
    leakGoal.filter (fun a => a.period_id == 1)
      = leakPass.filter (fun a => a.period_id == 1)
    ∧ (leakGoal.getD 0 default).period_id = 1
    ∧ leakGoal.getD 0 default = leakPass.getD 0 default
    ∧ labels.scores_time_based_window leakGoal 15 3 = some [true, true]
    ∧ labels.scores_time_based_window leakPass 15 3 = some [false, false] := by
  refine ⟨by decide, by decide, by decide, ?_, ?_⟩ <;>
  · norm_num [labels.scores_time_based_window, labels.scoresTbwList,
      labels.scanFound, labels.scanStep, labels.scoresHit, labels.mkY,
      leakGoal, leakPass, spadl.goalFlag, spadl.owngoalFlag, List.range_succ]
    all_goals decide

/-- C3 amended: the time-based labels are independent of other-period
actions only under the conditions the code actually enforces: if the two
sequences agree up to an index `e` closing action `i`'s period block, the
count pre-check window from `i` stays inside that block
(`i + nr_actions - 1 ≤ e`), and every action past `e` — the other-period
rows — fails the time bound `|t_j - t_i| < nr_seconds` (the spec's
"time resets at period boundaries" mechanism), then the label at `i` is
the same for both sequences.  (Without these conditions the label can
depend on other-period actions, as the scan and the pre-check never
inspect `period_id`.) -/
theorem tbw_labels_period_independent_when_far (seq₁ seq₂ : List Action)
    (ns : ℚ) (K : Int) (i e : Nat) (hie : i ≤ e) (he₁ : e < seq₁.length)
    (he₂ : e < seq₂.length)
    (hagree : ∀ j, j ≤ e → seq₁.getD j default = seq₂.getD j default)
    (hK : i + (K - 1).toNat ≤ e)
    (hfar₁ : ∀ j, e < j → j < seq₁.length →
        (seq₁.getD j default).period_id ≠ (seq₁.getD i default).period_id
        ∧ ¬ (|(seq₁.getD j default).time_seconds
              - (seq₁.getD i default).time_seconds| < ns))
    (hfar₂ : ∀ j, e < j → j < seq₂.length →
        (seq₂.getD j default).period_id ≠ (seq₂.getD i default).period_id
        ∧ ¬ (|(seq₂.getD j default).time_seconds
              - (seq₂.getD i default).time_seconds| < ns)) :
    (labels.scoresTbwList seq₁ ns K).getD i false
      = (labels.scoresTbwList seq₂ ns K).getD i false
    ∧ (labels.concedesTbwList seq₁ ns K).getD i false
      = (labels.concedesTbwList seq₂ ns K).getD i false := by
  have hi₁ : i < seq₁.length := by omega
  have hi₂ : i < seq₂.length := by omega
  have ha0 := hagree i hie
  have hpre_s : (labels.scoresFold (labels.mkY seq₁) K).getD i false
      = (labels.scoresFold (labels.mkY seq₂) K).getD i false := by
    rw [labels.scoresFold_eq_spec _ _ _ hi₁, labels.scoresFold_eq_spec _ _ _ hi₂,
      scoresSpecAt_agree seq₁ seq₂ K i e hie he₁ he₂ hagree hK]
  have hpre_c : (labels.concedesFold (labels.mkY seq₁) K).getD i false
      = (labels.concedesFold (labels.mkY seq₂) K).getD i false := by
    rw [labels.concedesFold_eq_spec _ _ _ hi₁, labels.concedesFold_eq_spec _ _ _ hi₂,
      concedesSpecAt_agree seq₁ seq₂ K i e hie he₁ he₂ hagree hK]
  have hscan : ∀ hit : Action → Bool,
      labels.scanFound hit (seq₁.getD i default).time_seconds ns (seq₁.drop (i + 1))
        = labels.scanFound hit (seq₁.getD i default).time_seconds ns
            (seq₂.drop (i + 1)) := by
    intro hit
    apply scan_agree_of_far hit _ ns seq₁ seq₂ i e hie he₁ he₂ hagree
    · exact fun j hj hjl => (hfar₁ j hj hjl).2
    · intro j hj hjl
      have h := (hfar₂ j hj hjl).2
      rwa [← ha0] at h
  constructor
  · rw [labels.scoresTbwList_getD _ _ _ _ hi₁, labels.scoresTbwList_getD _ _ _ _ hi₂,
      hpre_s, ← ha0, hscan (labels.scoresHit (seq₁.getD i default).team_id)]
  · rw [labels.concedesTbwList_getD _ _ _ _ hi₁,
      labels.concedesTbwList_getD _ _ _ _ hi₂, hpre_c, ← ha0,
      hscan (labels.concedesHit (seq₁.getD i default).team_id)]

/-- Witness for the amended C3 at `i = e = 0`, `ns = 15`, `K = 1`. -/
theorem tbw_labels_period_independent_when_far_witness :
    (0 : Nat) ≤ 0 ∧ (0 : Nat) < farGoal.length ∧ (0 : Nat) < farPass.length
    ∧ (∀ j, j ≤ 0 → farGoal.getD j default = farPass.getD j default)
    ∧ 0 + ((1 : Int) - 1).toNat ≤ 0
    ∧ (∀ j, 0 < j → j < farGoal.length →
        (farGoal.getD j default).period_id ≠ (farGoal.getD 0 default).period_id
        ∧ ¬ (|(farGoal.getD j default).time_seconds
              - (farGoal.getD 0 default).time_seconds| < 15))
    ∧ (∀ j, 0 < j → j < farPass.length →
        (farPass.getD j default).period_id ≠ (farPass.getD 0 default).period_id
        ∧ ¬ (|(farPass.getD j default).time_seconds
              - (farPass.getD 0 default).time_seconds| < 15))
    ∧ ((labels.scoresTbwList farGoal 15 1).getD 0 false
        = (labels.scoresTbwList farPass 15 1).getD 0 false
      ∧ (labels.concedesTbwList farGoal 15 1).getD 0 false
        = (labels.concedesTbwList farPass 15 1).getD 0 false) := by
  have hagree : ∀ j, j ≤ 0 → farGoal.getD j default = farPass.getD j default := by
    intro j hj
    have h0 : j = 0 := Nat.le_zero.mp hj
    subst h0
    rfl
  have hfar₁ : ∀ j, 0 < j → j < farGoal.length →
      (farGoal.getD j default).period_id ≠ (farGoal.getD 0 default).period_id
      ∧ ¬ (|(farGoal.getD j default).time_seconds
            - (farGoal.getD 0 default).time_seconds| < 15) := by
    intro j h1 h2
    have hj : j = 1 := by simp [farGoal] at h2; omega
    subst hj
    refine ⟨by decide, ?_⟩
    norm_num [farGoal]
  have hfar₂ : ∀ j, 0 < j → j < farPass.length →
      (farPass.getD j default).period_id ≠ (farPass.getD 0 default).period_id
      ∧ ¬ (|(farPass.getD j default).time_seconds
            - (farPass.getD 0 default).time_seconds| < 15) := by
    intro j h1 h2
    have hj : j = 1 := by simp [farPass] at h2; omega
    subst hj
    refine ⟨by decide, ?_⟩
    norm_num [farPass]
  exact ⟨le_rfl, by decide, by decide, hagree, by decide, hfar₁, hfar₂,
    tbw_labels_period_independent_when_far farGoal farPass 15 1 0 0 le_rfl
      (by decide) (by decide) hagree (by decide) hfar₁ hfar₂⟩

end SA
